import Mathlib

/-!
Shallow embedding of the core of the Physique-3js racing game
(track generation, track-surface queries, wall/vehicle collision
resolution, lap validation, remote-vehicle interpolation and the
frame loop's time step), together with theorems settling the
specification claims against it.

Numbers are idealised: JavaScript doubles become exact rationals
(for the purely arithmetic series code) or real numbers (for the
geometry, which uses square roots and angles).
-/

namespace Racing

/-! ## Track generation: smoothing passes (Track._generateSkeleton) -/

/-- First smoothing pass of `_generateSkeleton`, applied cyclically to a
series: `prev * smoothing * 0.5 + curr * (1 - smoothing) + next * smoothing * 0.5`.
The source runs it with `smoothing = 0.6` on the radius multipliers and
`altitudeSmoothing = 0.7` on the altitudes. -/
def smoothPassWeighted (smoothing : ℚ) (xs : List ℚ) : List ℚ :=
  (List.range xs.length).map fun i =>
    xs.getD ((i + xs.length - 1) % xs.length) 0 * smoothing * 0.5
      + xs.getD i 0 * (1 - smoothing)
      + xs.getD ((i + 1) % xs.length) 0 * smoothing * 0.5

/-- Second smoothing pass of `_generateSkeleton`, applied cyclically:
`prev * 0.25 + curr * 0.5 + next * 0.25`. -/
def smoothQuarterPass (xs : List ℚ) : List ℚ :=
  (List.range xs.length).map fun i =>
    xs.getD ((i + xs.length - 1) % xs.length) 0 * 0.25
      + xs.getD i 0 * 0.5
      + xs.getD ((i + 1) % xs.length) 0 * 0.25

/-- Radius-multiplier smoothing chain of `_generateSkeleton`
(`smoothedMultipliers` then `finalMultipliers`), with `smoothing = 0.6`. -/
def radiusSmoothChain (xs : List ℚ) : List ℚ :=
  smoothQuarterPass (smoothPassWeighted 0.6 xs)

/-- Altitude smoothing chain of `_generateSkeleton`
(`smoothedAltitudes` then `finalAltitudes`), with `altitudeSmoothing = 0.7`. -/
def altitudeSmoothChain (xs : List ℚ) : List ℚ :=
  smoothQuarterPass (smoothPassWeighted 0.7 xs)

/-- Smoothing as the specification describes it: two passes that both use
the weights `prev * 0.25 + self * 0.5 + next * 0.25`.  Written from the
spec's words, for comparison with the source chains above. -/
def specClaimedSmoothChain (xs : List ℚ) : List ℚ :=
  smoothQuarterPass (smoothQuarterPass xs)

/-! ## Vectors (THREE.Vector3 operations used by the embedded code) -/

/-- A 3D vector: `x`, altitude `y`, `z`. -/
structure Vec3 where
  x : ℝ
  y : ℝ
  z : ℝ

noncomputable def vadd (a b : Vec3) : Vec3 := ⟨a.x + b.x, a.y + b.y, a.z + b.z⟩

noncomputable def vsub (a b : Vec3) : Vec3 := ⟨a.x - b.x, a.y - b.y, a.z - b.z⟩

noncomputable def vsmul (c : ℝ) (v : Vec3) : Vec3 := ⟨c * v.x, c * v.y, c * v.z⟩

noncomputable def dot3 (a b : Vec3) : ℝ := a.x * b.x + a.y * b.y + a.z * b.z

/-- `THREE.Vector3.length`. -/
noncomputable def len3 (v : Vec3) : ℝ := Real.sqrt (dot3 v v)

/-- `THREE.Vector3.distanceTo`. -/
noncomputable def dist3 (a b : Vec3) : ℝ := len3 (vsub a b)

/-- Length of the 2D `(x, z)` projection of the difference, as computed via
`new THREE.Vector2(dx, dz).length()` in the source. -/
noncomputable def dist2D (a b : Vec3) : ℝ :=
  Real.sqrt ((a.x - b.x) ^ 2 + (a.z - b.z) ^ 2)

/-- `THREE.Vector3.normalize`: divides by the length, or by 1 when the
length is zero (leaving the zero vector unchanged). -/
noncomputable def vnormalize (v : Vec3) : Vec3 :=
  if len3 v = 0 then v else vsmul (1 / len3 v) v

/-- `THREE.Vector3.lerp(target, t)`. -/
noncomputable def vlerp (a b : Vec3) (t : ℝ) : Vec3 :=
  vadd a (vsmul t (vsub b a))

/-! ## 2D segment crossing test (Track._linesCross2D) -/

open Classical in
/-- `Track._linesCross2D(a1, a2, b1, b2)`: the determinant/parametric 2D
segment intersection test over `(x, z)`, with the source's near-parallel
guard `if (Math.abs(denom) < 0.0001) return false`. -/
def linesCross2D (a1 a2 b1 b2 : Vec3) : Prop :=
  let denom := (a1.x - a2.x) * (b1.z - b2.z) - (a1.z - a2.z) * (b1.x - b2.x)
  if |denom| < 0.0001 then False
  else
    let t := ((a1.x - b1.x) * (b1.z - b2.z) - (a1.z - b1.z) * (b1.x - b2.x)) / denom
    let u := -((a1.x - a2.x) * (a1.z - b1.z) - (a1.z - a2.z) * (a1.x - b1.x)) / denom
    0 ≤ t ∧ t ≤ 1 ∧ 0 ≤ u ∧ u ≤ 1

/-- The crossing test as the specification words it: the determinant /
parametric-`t,u` test with both parameters in `[0,1]` (defined whenever the
denominator is nonzero).  Written from the spec, for comparison with
`linesCross2D`. -/
def specCrosses (a1 a2 b1 b2 : Vec3) : Prop :=
  let denom := (a1.x - a2.x) * (b1.z - b2.z) - (a1.z - a2.z) * (b1.x - b2.x)
  denom ≠ 0 ∧
    (let t := ((a1.x - b1.x) * (b1.z - b2.z) - (a1.z - b1.z) * (b1.x - b2.x)) / denom
     let u := -((a1.x - a2.x) * (a1.z - b1.z) - (a1.z - a2.z) * (a1.x - b1.x)) / denom
     0 ≤ t ∧ t ≤ 1 ∧ 0 ≤ u ∧ u ≤ 1)

/-! ## Track data, checkpoints and finish line -/

/-- A lap-validation checkpoint: a perpendicular line segment spanning the
track width (`Track._createCheckpoints`). -/
structure Checkpoint where
  leftEdge : Vec3
  rightEdge : Vec3

/-- The slice of `Track` state the embedded queries read. -/
structure Track where
  skeletonPoints : List Vec3
  trackWidth : ℝ
  checkpoints : List Checkpoint

/-- `Track.checkCheckpoint(oldPos, newPos, checkpointId)` viewed as the
predicate "a checkpoint was returned" (out-of-range ids return null). -/
def checkCheckpointCrossed (track : Track) (oldPos newPos : Vec3) (i : ℕ) : Prop :=
  match track.checkpoints[i]? with
  | none => False
  | some cp => linesCross2D oldPos newPos cp.leftEdge cp.rightEdge

/-- `Track.checkFinishLine(oldPos, newPos)`: rebuilds the finish-line edge
from skeleton points 0 and 1 and tests the 2D crossing.  Fewer than 2
skeleton points returns false. -/
noncomputable def checkFinishLine (track : Track) (oldPos newPos : Vec3) : Prop :=
  2 ≤ track.skeletonPoints.length ∧
    (let startPoint := track.skeletonPoints.getD 0 ⟨0, 0, 0⟩
     let nextPoint := track.skeletonPoints.getD 1 ⟨0, 0, 0⟩
     let tangent := vnormalize (vsub nextPoint startPoint)
     let perpendicular := vnormalize ⟨-tangent.z, 0, tangent.x⟩
     let halfWidth := track.trackWidth / 2
     let leftEdge := vadd startPoint (vsmul halfWidth perpendicular)
     let rightEdge := vadd startPoint (vsmul (-halfWidth) perpendicular)
     linesCross2D oldPos newPos leftEdge rightEdge)

/-! ## Vehicle state (Car) -/

/-- The simulation-relevant slice of a `Car`'s mutable state. -/
structure CarState where
  pos : Vec3
  lastPosition : Vec3
  rotY : ℝ
  speed : ℝ
  lives : ℕ
  isDead : Bool
  currentLap : ℕ
  checkpointsCleared : Finset ℕ
  totalCheckpoints : ℕ
  collisionCooldown : ℝ
  collisionCooldownTime : ℝ
  collisionRadius : ℝ
  targetPos : Vec3
  targetRot : ℝ
  velocity : Vec3

/-- `Car.passCheckpoint(checkpointId)`: adds the id to the cleared set. -/
def passCheckpoint (c : CarState) (checkpointId : ℕ) : CarState :=
  { c with checkpointsCleared := insert checkpointId c.checkpointsCleared }

/-- `Car.allCheckpointsCleared()`: `checkpointsCleared.size >= totalCheckpoints`. -/
def allCheckpointsCleared (c : CarState) : Prop :=
  c.totalCheckpoints ≤ c.checkpointsCleared.card

/-- `Car.completeLap()`: when all checkpoints are cleared, increments
`currentLap` and empties the cleared set, reporting success. -/
def completeLap (c : CarState) : CarState × Bool :=
  if c.totalCheckpoints ≤ c.checkpointsCleared.card then
    ({ c with currentLap := c.currentLap + 1, checkpointsCleared := ∅ }, true)
  else (c, false)

/-- `Car.loseLife()`: clamps at zero; death at zero lives. -/
def loseLife (c : CarState) : CarState :=
  { c with lives := c.lives - 1,
           isDead := if c.lives - 1 = 0 then true else c.isDead }

/-- `Car.resetLapProgress()`. -/
def resetLapProgress (c : CarState) : CarState :=
  { c with currentLap := 0, checkpointsCleared := ∅ }

/-! ## Lap validation tick (Game._checkCheckpoints) -/

open Classical in
/-- One iteration of the checkpoint sweep in `Game._checkCheckpoints`: a
checkpoint id not yet in the cleared set is added when the segment from the
last to the current position crosses its edge. -/
noncomputable def clearStep (track : Track) (lastPos newPos : Vec3)
    (c : CarState) (i : ℕ) : CarState :=
  if i ∉ c.checkpointsCleared ∧ checkCheckpointCrossed track lastPos newPos i then
    passCheckpoint c i
  else c

/-- Checkpoint sweep of `Game._checkCheckpoints` over all checkpoint ids. -/
noncomputable def clearCheckpointsPass (track : Track) (car : CarState) : CarState :=
  (List.range track.checkpoints.length).foldl
    (clearStep track car.lastPosition car.pos) car

open Classical in
/-- `Game._checkCheckpoints()`: dead vehicles are skipped entirely; otherwise
sweep the checkpoints, then count a finish-line crossing only when all
checkpoints are cleared, and finally record the current position as the last
position for the next frame. -/
noncomputable def checkCheckpointsStep (track : Track) (car : CarState) : CarState :=
  if car.isDead then car
  else
    let car1 := clearCheckpointsPass track car
    let car2 :=
      if allCheckpointsCleared car1 ∧ checkFinishLine track car.lastPosition car.pos then
        (completeLap car1).1
      else car1
    { car2 with lastPosition := car.pos }

/-! ## Segment-hinted surface search (Track.getTrackSurfaceAt, segment part) -/

/-- Axis-aligned bounding box of a track segment, padded by the track width
(`Track._createSegments`). -/
structure SegBounds where
  minX : ℝ
  maxX : ℝ
  minZ : ℝ
  maxZ : ℝ
  minY : ℝ
  maxY : ℝ

/-- Segment metadata from `Track._createSegments`: neighbor ids, bounding
box, the parametric range excluding curve-fitting padding, and the local
interpolation curve (abstracted as a function). -/
structure TrackSegment where
  prevSegment : ℕ
  nextSegment : ℕ
  bounds : SegBounds
  tStart : ℝ
  tEnd : ℝ
  curve : ℝ → Vec3

/-- Default segment used for out-of-range list reads. -/
noncomputable def defaultSeg : TrackSegment :=
  { prevSegment := 0, nextSegment := 0,
    bounds := ⟨0, 0, 0, 0, 0, 0⟩, tStart := 0, tEnd := 0,
    curve := fun _ => ⟨0, 0, 0⟩ }

/-- The bounding-box pre-filter test of `getTrackSurfaceAt`
(`position.x/z` within the padded box; `y` is ignored). -/
def boundsContain (b : SegBounds) (pos : Vec3) : Prop :=
  pos.x ≥ b.minX ∧ pos.x ≤ b.maxX ∧ pos.z ≥ b.minZ ∧ pos.z ≤ b.maxZ

open Classical in
/-- Fallback candidate list of `getTrackSurfaceAt` when no (valid) segment
hint is given: every segment whose padded bounding box contains the query,
or all segments when none matches. -/
noncomputable def bboxCandidates (segs : List TrackSegment) (pos : Vec3) : List ℕ :=
  let filtered := (List.range segs.length).filter
    (fun i => decide (boundsContain (segs.getD i defaultSeg).bounds pos))
  if filtered = [] then List.range segs.length else filtered

open Classical in
/-- The `segmentsToSearch` selection of `getTrackSurfaceAt`: a valid hint
(non-null id inside the segment array, the JavaScript `>= 0` test being
absorbed by `ℕ`) restricts the search to the hinted segment and its two
neighbors; otherwise the bounding-box pre-filter runs over all segments. -/
noncomputable def segmentsToSearch (segs : List TrackSegment)
    (currentSegmentId : Option ℕ) (pos : Vec3) : List ℕ :=
  match currentSegmentId with
  | some k =>
      if k < segs.length then
        [k, (segs.getD k defaultSeg).prevSegment, (segs.getD k defaultSeg).nextSegment]
      else bboxCandidates segs pos
  | none => bboxCandidates segs pos

/-- The candidate list actually used each tick by `Car.followTrackSurface`:
the source calls `track.getTrackSurfaceAt(this.mesh.position)` with no
second argument, so `currentSegmentId` defaults to `null`. -/
noncomputable def followTrackSurfaceSearch (segs : List TrackSegment)
    (carPos : Vec3) : List ℕ :=
  segmentsToSearch segs none carPos

/-! ## Wall boundary check (Track.checkWallCollision) -/

/-- `Math.max(0, Math.min(1, t))`. -/
noncomputable def clamp01 (t : ℝ) : ℝ := max 0 (min 1 t)

open Classical in
/-- Per-edge work of `Track.checkWallCollision`: clamped parametric
projection of the query onto skeleton edge `i` (3D dot product), paired
with the 2D `(x, z)` distance from the query to that projection.
Zero-length edges are skipped (`continue`). -/
noncomputable def edgeProj (pts : List Vec3) (pos : Vec3) (i : ℕ) : Option (ℝ × ℝ) :=
  let p1 := pts.getD i ⟨0, 0, 0⟩
  let p2 := pts.getD ((i + 1) % pts.length) ⟨0, 0, 0⟩
  let lineVec := vsub p2 p1
  let pointVec := vsub pos p1
  let lineLength := len3 lineVec
  if lineLength = 0 then none
  else
    let t := clamp01 (dot3 pointVec lineVec / (lineLength * lineLength))
    let projection := vadd p1 (vsmul t lineVec)
    some (dist2D pos projection, t)

open Classical in
/-- Running-minimum update of the edge loop in `checkWallCollision`
(strict `<`, so the first edge wins ties, matching the source). -/
noncomputable def wallScanStep (pts : List Vec3) (pos : Vec3)
    (st : Option (ℝ × ℕ × ℝ)) (i : ℕ) : Option (ℝ × ℕ × ℝ) :=
  match edgeProj pts pos i with
  | none => st
  | some (d, t) =>
    match st with
    | none => some (d, i, t)
    | some (d0, i0, t0) => if d < d0 then some (d, i, t) else some (d0, i0, t0)

/-- The whole edge loop of `checkWallCollision`: the globally closest
(in 2D) clamped projection over all skeleton edges, as distance, edge index
and edge parameter.  `none` plays the role of the initial `Infinity`. -/
noncomputable def wallScan (pts : List Vec3) (pos : Vec3) : Option (ℝ × ℕ × ℝ) :=
  (List.range pts.length).foldl (wallScanStep pts pos) none

/-- Recomputation of the closest centerline point from the stored edge
index and parameter, as `checkWallCollision` does after the loop. -/
noncomputable def closestPointOf (pts : List Vec3) (i : ℕ) (t : ℝ) : Vec3 :=
  let p1 := pts.getD i ⟨0, 0, 0⟩
  let p2 := pts.getD ((i + 1) % pts.length) ⟨0, 0, 0⟩
  vadd p1 (vsmul t (vsub p2 p1))

/-- The collision record returned by `Track.checkWallCollision`
(the constant `isColliding: true` field is dropped). -/
structure WallHit where
  correctionVector : Vec3
  penetrationDepth : ℝ
  closestPoint : Vec3

open Classical in
/-- `Track.checkWallCollision(position)`: null for degenerate skeletons and
for queries within `halfWidth - carRadius` (with `carRadius = 1.0`) of the
closest edge projection; otherwise the unit correction toward the closest
centerline point (`y` zeroed before normalizing) and the excess distance.
A skeleton whose consecutive points all coincide (every edge skipped, the
original's running minimum stuck at `Infinity`) is mapped to null here. -/
noncomputable def checkWallCollision (track : Track) (pos : Vec3) : Option WallHit :=
  if track.skeletonPoints.length < 2 then none
  else
    match wallScan track.skeletonPoints pos with
    | none => none
    | some (closestDistance, i, t) =>
      let closestPoint := closestPointOf track.skeletonPoints i t
      let halfWidth := track.trackWidth / 2
      let carRadius := (1.0 : ℝ)
      let maxDistance := halfWidth - carRadius
      if closestDistance > maxDistance then
        some { correctionVector :=
                 vnormalize ⟨closestPoint.x - pos.x, 0, closestPoint.z - pos.z⟩,
               penetrationDepth := closestDistance - maxDistance,
               closestPoint := closestPoint }
      else none

/-! ## Wall collision response (Game._checkWallCollisions) -/

/-- `Math.atan2(y, x)`, as the argument of the complex number `x + y*i`,
valued in `(-π, π]`. -/
noncomputable def atan2 (y x : ℝ) : ℝ := Complex.arg ⟨x, y⟩

open Classical in
/-- Closed form of the two wrap loops in `_checkWallCollisions`
(`while (d > π) d -= 2π; while (d < -π) d += 2π`): the ceiling counts the
iterations of whichever loop runs. -/
noncomputable def wrapToPi (d : ℝ) : ℝ :=
  if Real.pi < d then d - 2 * Real.pi * (⌈(d - Real.pi) / (2 * Real.pi)⌉ : ℤ)
  else if d < -Real.pi then d + 2 * Real.pi * (⌈(-Real.pi - d) / (2 * Real.pi)⌉ : ℤ)
  else d

/-- Response of `Game._checkWallCollisions` to a reported collision:
displace by `correctionVector * min(penetrationDepth * 1.5, 1.0)`, scale
speed by `0.7`, and rotate 20% of the wrapped way toward the correction
direction `atan2(correction.x, correction.z)`. -/
noncomputable def wallResponseStep (car : CarState) (hit : WallHit) : CarState :=
  let pushStrength := min (hit.penetrationDepth * 1.5) 1.0
  let targetRotation := atan2 hit.correctionVector.x hit.correctionVector.z
  let rotationDiff := wrapToPi (targetRotation - car.rotY)
  { car with pos := vadd car.pos (vsmul pushStrength hit.correctionVector),
             speed := car.speed * 0.7,
             rotY := car.rotY + rotationDiff * 0.2 }

open Classical in
/-- `Game._checkWallCollisions()`: dead vehicles are skipped; otherwise the
boundary check runs at the vehicle's position and a reported collision is
resolved by `wallResponseStep`. -/
noncomputable def checkWallCollisionsStep (track : Track) (car : CarState) : CarState :=
  if car.isDead then car
  else
    match checkWallCollision track car.pos with
    | none => car
    | some hit => wallResponseStep car hit

/-! ## Remote-vehicle interpolation (Car.interpolate) -/

open Classical in
/-- `Car.interpolate(dt)`: dead-reckoning interpolation of a remote
vehicle.  The position moves 30% of the way toward the last received target
advanced by `velocity * (dt * 2)`; the rotation advances by 25% of the
angular difference after one single-step `±2π` wrap (two `if`s, not loops). -/
noncomputable def interpolateStep (car : CarState) (dt : ℝ) : CarState :=
  let predictedPos := vadd car.targetPos (vsmul (dt * 2) car.velocity)
  let newPos := vlerp car.pos predictedPos 0.3
  let rotDiff0 := car.targetRot - car.rotY
  let rotDiff1 := if rotDiff0 > Real.pi then rotDiff0 - Real.pi * 2 else rotDiff0
  let rotDiff2 := if rotDiff1 < -Real.pi then rotDiff1 + Real.pi * 2 else rotDiff1
  { car with pos := newPos, rotY := car.rotY + rotDiff2 * 0.25 }

/-! ## Vehicle-vehicle collisions (Game._checkCollisions / _handleCollisionPush) -/

/-- The slice of a remote player's state read by collision processing. -/
structure RemoteCar where
  pos : Vec3
  collisionRadius : ℝ
  isDead : Bool

/-- A `collision_push` wire message: an impulse aimed at one target id. -/
structure PushMsg where
  target : ℕ
  force : Vec3

open Classical in
/-- Processing of one remote player inside `Game._checkCollisions`: on
overlap within `(radiusA + radiusB) * 1.3` with the local cooldown expired,
send a push at the other vehicle (force from the attacker's own speed,
zero `y` component), scale the local speed by `0.92` and arm the cooldown;
dead players are skipped.  The attacker's position is never written. -/
noncomputable def collideStep (st : CarState × List PushMsg)
    (pr : ℕ × RemoteCar) : CarState × List PushMsg :=
  let c := st.1
  let player := pr.2
  if player.isDead then st
  else
    let collisionDistance := (c.collisionRadius + player.collisionRadius) * 1.3
    let d := dist3 c.pos player.pos
    if d < collisionDistance ∧ c.collisionCooldown ≤ 0 then
      let collisionVector := vnormalize (vsub player.pos c.pos)
      let impactForce := |c.speed| * 0.015
      let restitution := (0.6 : ℝ)
      let separationForce := (1.0 : ℝ)
      let msg : PushMsg :=
        ⟨pr.1, ⟨collisionVector.x * (impactForce * restitution + separationForce), 0,
                collisionVector.z * (impactForce * restitution + separationForce)⟩⟩
      ({ c with speed := c.speed * 0.92,
                collisionCooldown := c.collisionCooldownTime },
        st.2 ++ [msg])
    else st

open Classical in
/-- `Game._checkCollisions(dt)`: skipped when the local vehicle is dead; an
armed cooldown is ticked down by `dt`; then every remote player is processed
in registry order. -/
noncomputable def checkCollisionsStep (car : CarState)
    (remotes : List (ℕ × RemoteCar)) (dt : ℝ) : CarState × List PushMsg :=
  if car.isDead then (car, [])
  else
    let car0 :=
      if 0 < car.collisionCooldown then
        { car with collisionCooldown := car.collisionCooldown - dt }
      else car
    remotes.foldl collideStep (car0, [])

open Classical in
/-- `Game._handleCollisionPush(msg)`: a push targeting the live local
vehicle is added directly to its position, and its speed is halved. -/
noncomputable def handleCollisionPushStep (localId msgTarget : ℕ)
    (force : Vec3) (car : CarState) : CarState :=
  if msgTarget = localId ∧ car.isDead = false then
    { car with pos := vadd car.pos force, speed := car.speed * 0.5 }
  else car

/-! ## Frame loop time step (Game.animate) -/

/-- Time delta fed to the physics step by `Game.animate`:
`dt = Math.max(0, (now - prevTime) / 1000)` (milliseconds to seconds). -/
noncomputable def animateDt (now prevTime : ℝ) : ℝ :=
  max 0 ((now - prevTime) / 1000)

/-! ## Concrete example data, used by witnesses -/

/-- Example track: a two-point skeleton along the `z` axis, the source's
track width 12, and no checkpoints. -/
noncomputable def exTrack : Track :=
  { skeletonPoints := [⟨0, 0, 0⟩, ⟨0, 0, 10⟩]
    trackWidth := 12
    checkpoints := [] }

/-- Example vehicle: alive at the origin area, constructor-like defaults. -/
noncomputable def exCar : CarState :=
  { pos := ⟨0, 0, 1⟩
    lastPosition := ⟨0, 0, -1⟩
    rotY := 0
    speed := 100
    lives := 3
    isDead := false
    currentLap := 0
    checkpointsCleared := ∅
    totalCheckpoints := 0
    collisionCooldown := 0
    collisionCooldownTime := 0.5
    collisionRadius := 1.2
    targetPos := ⟨0, 0, 0⟩
    targetRot := 0
    velocity := ⟨0, 0, 0⟩ }

/-- Example remote player: alive, one unit away from `exCar`. -/
noncomputable def exRemote : RemoteCar :=
  { pos := ⟨1, 0, 1⟩
    collisionRadius := 1.2
    isDead := false }

/-- Example remote vehicle whose last snapshot carried a large rotation. -/
noncomputable def exCarRot : CarState :=
  { exCar with targetRot := 10 }

/-- Example vehicle drifted 2 units outside the drivable corridor of
`exTrack` (corridor radius `12/2 - 1 = 5`, query at 2D distance 7). -/
noncomputable def exCarWall : CarState :=
  { exCar with pos := ⟨7, 0, 5⟩ }

/-- Example track segment near the origin. -/
noncomputable def exSegA : TrackSegment :=
  { prevSegment := 2, nextSegment := 1,
    bounds := ⟨0, 10, 0, 10, -12, 12⟩, tStart := 0.2, tEnd := 0.8,
    curve := fun _ => ⟨0, 0, 0⟩ }

/-- Example track segment further along `x`. -/
noncomputable def exSegB : TrackSegment :=
  { prevSegment := 0, nextSegment := 2,
    bounds := ⟨20, 30, 0, 10, -12, 12⟩, tStart := 0.2, tEnd := 0.8,
    curve := fun _ => ⟨25, 0, 5⟩ }

/-- Example track segment furthest along `x`. -/
noncomputable def exSegC : TrackSegment :=
  { prevSegment := 1, nextSegment := 0,
    bounds := ⟨40, 50, 0, 10, -12, 12⟩, tStart := 0.2, tEnd := 0.8,
    curve := fun _ => ⟨45, 0, 5⟩ }

/-- Example three-segment ring. -/
noncomputable def exSegs : List TrackSegment := [exSegA, exSegB, exSegC]

/-- Example query position, inside `exSegA`'s box only. -/
noncomputable def exQueryPos : Vec3 := ⟨5, 0, 5⟩

end Racing

namespace Racing

open Classical

/-! ## Theorems -/

/-- Helper: reading an entry of a `map` over `List.range`. -/
theorem getD_map_range (f : ℕ → ℚ) (n i : ℕ) (h : i < n) :
    ((List.range n).map f).getD i 0 = f i := by
  rw [List.getD_eq_getElem?_getD]
  rw [List.getElem?_map]
  rw [List.getElem?_range h]
  rfl

theorem length_smoothPassWeighted (s : ℚ) (xs : List ℚ) :
    (smoothPassWeighted s xs).length = xs.length := by
  simp [smoothPassWeighted]

theorem length_smoothQuarterPass (xs : List ℚ) :
    (smoothQuarterPass xs).length = xs.length := by
  simp [smoothQuarterPass]

/-- C7 counterexample: on the series `[1, 0, 0, 0]` the source's smoothing
chains (first pass weighted by `0.6`, resp. `0.7`, second pass by `0.25`)
disagree with the spec's claim that both passes use `0.25 / 0.5 / 0.25`. -/
theorem C7_counterexample :
    radiusSmoothChain [1, 0, 0, 0] ≠ specClaimedSmoothChain [1, 0, 0, 0] ∧
    altitudeSmoothChain [1, 0, 0, 0] ≠ specClaimedSmoothChain [1, 0, 0, 0] := by
  constructor
  · simp only [radiusSmoothChain, specClaimedSmoothChain, smoothQuarterPass,
      smoothPassWeighted, List.length_cons, List.length_nil, List.range_succ,
      List.range_zero, List.map_append, List.map_cons, List.map_nil, List.getD,
      List.nil_append, List.cons_append, List.length_map, List.length_range]
    norm_num
  · simp only [altitudeSmoothChain, specClaimedSmoothChain, smoothQuarterPass,
      smoothPassWeighted, List.length_cons, List.length_nil, List.range_succ,
      List.range_zero, List.map_append, List.map_cons, List.map_nil, List.getD,
      List.nil_append, List.cons_append, List.length_map, List.length_range]
    norm_num

/-- C7 (amended): both series are smoothed by exactly two cyclic
neighbor-weighted passes, but the first pass uses the weights
`prev * 0.3 + self * 0.4 + next * 0.3` for the radius multipliers and
`prev * 0.35 + self * 0.3 + next * 0.35` for the altitudes; only the second
pass uses `prev * 0.25 + self * 0.5 + next * 0.25`. -/
theorem C7_two_pass_smoothing (xs : List ℚ) (i : ℕ) (h : i < xs.length) :
    (radiusSmoothChain xs).getD i 0 =
      (smoothPassWeighted 0.6 xs).getD ((i + xs.length - 1) % xs.length) 0 * 0.25
        + (smoothPassWeighted 0.6 xs).getD i 0 * 0.5
        + (smoothPassWeighted 0.6 xs).getD ((i + 1) % xs.length) 0 * 0.25 ∧
    (altitudeSmoothChain xs).getD i 0 =
      (smoothPassWeighted 0.7 xs).getD ((i + xs.length - 1) % xs.length) 0 * 0.25
        + (smoothPassWeighted 0.7 xs).getD i 0 * 0.5
        + (smoothPassWeighted 0.7 xs).getD ((i + 1) % xs.length) 0 * 0.25 ∧
    (smoothPassWeighted 0.6 xs).getD i 0 =
      xs.getD ((i + xs.length - 1) % xs.length) 0 * 0.3
        + xs.getD i 0 * 0.4 + xs.getD ((i + 1) % xs.length) 0 * 0.3 ∧
    (smoothPassWeighted 0.7 xs).getD i 0 =
      xs.getD ((i + xs.length - 1) % xs.length) 0 * 0.35
        + xs.getD i 0 * 0.3 + xs.getD ((i + 1) % xs.length) 0 * 0.35 := by
  have hn : 0 < xs.length := lt_of_le_of_lt (Nat.zero_le i) h
  refine ⟨?_, ?_, ?_, ?_⟩
  · unfold radiusSmoothChain smoothQuarterPass
    rw [length_smoothPassWeighted]
    exact getD_map_range _ _ _ h
  · unfold altitudeSmoothChain smoothQuarterPass
    rw [length_smoothPassWeighted]
    exact getD_map_range _ _ _ h
  · unfold smoothPassWeighted
    rw [getD_map_range _ _ _ h]
    ring
  · unfold smoothPassWeighted
    rw [getD_map_range _ _ _ h]
    ring

/-- C7 witness: the amended two-pass description evaluated on `[1, 0, 0, 0]`
at index `0`. -/
theorem C7_two_pass_smoothing_witness :
    (0 < ([1, 0, 0, 0] : List ℚ).length) ∧
    (radiusSmoothChain [1, 0, 0, 0]).getD 0 0 =
      (smoothPassWeighted 0.6 [1, 0, 0, 0]).getD ((0 + 4 - 1) % 4) 0 * 0.25
        + (smoothPassWeighted 0.6 [1, 0, 0, 0]).getD 0 0 * 0.5
        + (smoothPassWeighted 0.6 [1, 0, 0, 0]).getD ((0 + 1) % 4) 0 * 0.25 :=
  ⟨by decide, (C7_two_pass_smoothing [1, 0, 0, 0] 0 (by decide)).1⟩

/-- C6 counterexample: `animateDt` has no upper bound at all — for every
candidate bound there is a frame gap exceeding it — and a 5-second gap
(e.g. a backgrounded tab) enters the physics step as `dt = 5`. -/
theorem C6_counterexample :
    animateDt 5000 0 = 5 ∧ ¬ ∃ B : ℝ, ∀ now prevTime : ℝ, animateDt now prevTime ≤ B := by
  constructor
  · unfold animateDt
    norm_num
  · rintro ⟨B, hB⟩
    have hB0 : (0:ℝ) ≤ B := by
      have h0 := hB 0 0
      unfold animateDt at h0
      simpa using h0
    have h1 := hB (1000 * (B + 1)) 0
    unfold animateDt at h1
    rw [max_eq_right (by nlinarith)] at h1
    nlinarith

/-- C6 (amended): the frame-loop time delta is only clamped below at `0`
(never negative); it has no upper clamp, so any non-negative gap of `g`
milliseconds is fed to the simulator as `g / 1000` seconds, however large. -/
theorem C6_dt_lower_clamp_only (now prevTime : ℝ) (h : prevTime ≤ now) :
    0 ≤ animateDt now prevTime ∧ animateDt now prevTime = (now - prevTime) / 1000 := by
  constructor
  · exact le_max_left _ _
  · unfold animateDt
    rw [max_eq_right (div_nonneg (by linarith) (by norm_num))]

/-- C6 witness: a 5-second frame gap passes through unclamped. -/
theorem C6_dt_lower_clamp_only_witness :
    (0:ℝ) ≤ 5000 ∧ 0 ≤ animateDt 5000 0 ∧ animateDt 5000 0 = (5000 - 0) / 1000 :=
  ⟨by norm_num, (C6_dt_lower_clamp_only 5000 0 (by norm_num)).1,
    (C6_dt_lower_clamp_only 5000 0 (by norm_num)).2⟩

/-- C9 counterexample: two tiny segments that genuinely cross at
`t = u = 1/2`, so the spec's determinant/parametric test succeeds, yet the
source's near-parallel guard (`|denom| = 1/40000 < 0.0001`) makes
`_linesCross2D` report no crossing. -/
theorem C9_counterexample :
    specCrosses ⟨0, 0, 0⟩ ⟨1/200, 0, 0⟩ ⟨1/400, 0, -(1/400)⟩ ⟨1/400, 0, 1/400⟩ ∧
    ¬ linesCross2D ⟨0, 0, 0⟩ ⟨1/200, 0, 0⟩ ⟨1/400, 0, -(1/400)⟩ ⟨1/400, 0, 1/400⟩ := by
  constructor
  · simp only [specCrosses]
    norm_num
  · intro hcross
    simp only [linesCross2D] at hcross
    have hc : |((0:ℝ) - 1 / 200) * (-(1 / 400) - 1 / 400) - (0 - 0) * (1 / 400 - 1 / 400)|
        < 1e-4 := by
      have he : ((0:ℝ) - 1 / 200) * (-(1 / 400) - 1 / 400) - (0 - 0) * (1 / 400 - 1 / 400)
          = 1 / 40000 := by norm_num
      rw [he, abs_of_nonneg (by norm_num)]
      norm_num
    rw [if_pos hc] at hcross
    exact hcross

/-- C9 (amended): whenever the 2D determinant is at least the source's
epsilon `0.0001` in absolute value, `_linesCross2D` agrees exactly with the
spec's determinant/parametric `t, u ∈ [0,1]` test; below that threshold the
source returns false regardless of `t` and `u`. -/
theorem C9_guarded_equivalence (a1 a2 b1 b2 : Vec3)
    (h : 0.0001 ≤ |(a1.x - a2.x) * (b1.z - b2.z) - (a1.z - a2.z) * (b1.x - b2.x)|) :
    (linesCross2D a1 a2 b1 b2 ↔ specCrosses a1 a2 b1 b2) := by
  have hden : (a1.x - a2.x) * (b1.z - b2.z) - (a1.z - a2.z) * (b1.x - b2.x) ≠ 0 := by
    intro h0
    rw [h0] at h
    simp at h
    linarith
  simp only [linesCross2D, specCrosses]
  rw [if_neg (not_lt.mpr h)]
  tauto

/-- C9 witness: a pair of clearly crossing unit-scale segments, where the
guard passes and both tests agree. -/
theorem C9_guarded_equivalence_witness :
    (0.0001 ≤
      |((⟨-1, 0, 0⟩ : Vec3).x - (⟨1, 0, 0⟩ : Vec3).x) *
          ((⟨0, 0, -1⟩ : Vec3).z - (⟨0, 0, 1⟩ : Vec3).z) -
        ((⟨-1, 0, 0⟩ : Vec3).z - (⟨1, 0, 0⟩ : Vec3).z) *
          ((⟨0, 0, -1⟩ : Vec3).x - (⟨0, 0, 1⟩ : Vec3).x)|) ∧
    (linesCross2D ⟨-1, 0, 0⟩ ⟨1, 0, 0⟩ ⟨0, 0, -1⟩ ⟨0, 0, 1⟩ ↔
      specCrosses ⟨-1, 0, 0⟩ ⟨1, 0, 0⟩ ⟨0, 0, -1⟩ ⟨0, 0, 1⟩) :=
  ⟨by norm_num, C9_guarded_equivalence _ _ _ _ (by norm_num)⟩

/-- Helper: every iteration of the checkpoint sweep only rewrites the
cleared-checkpoint set; all other vehicle fields pass through. -/
theorem clearFold_shape (track : Track) (lastPos newPos : Vec3) :
    ∀ (L : List ℕ) (c : CarState),
      ∃ s : Finset ℕ,
        L.foldl (clearStep track lastPos newPos) c = { c with checkpointsCleared := s } := by
  intro L
  induction L with
  | nil =>
    intro c
    exact ⟨c.checkpointsCleared, rfl⟩
  | cons a L ih =>
    intro c
    obtain ⟨s, hs⟩ := ih (clearStep track lastPos newPos c a)
    refine ⟨s, ?_⟩
    rw [List.foldl_cons, hs]
    unfold clearStep
    by_cases hcond : a ∉ c.checkpointsCleared ∧ checkCheckpointCrossed track lastPos newPos a
    · rw [if_pos hcond]
      rfl
    · rw [if_neg hcond]

/-- Helper: the checkpoint sweep keeps the cleared set inside any superset
closed under the swept ids. -/
theorem clearFold_subset (track : Track) (lastPos newPos : Vec3) (S : Finset ℕ) :
    ∀ (L : List ℕ) (c : CarState),
      c.checkpointsCleared ⊆ S → (∀ i ∈ L, i ∈ S) →
      (L.foldl (clearStep track lastPos newPos) c).checkpointsCleared ⊆ S := by
  intro L
  induction L with
  | nil =>
    intro c hc _
    exact hc
  | cons a L ih =>
    intro c hc hL
    rw [List.foldl_cons]
    refine ih _ ?_ (fun i hi => hL i (List.mem_cons_of_mem a hi))
    unfold clearStep
    by_cases hcond : a ∉ c.checkpointsCleared ∧ checkCheckpointCrossed track lastPos newPos a
    · rw [if_pos hcond]
      unfold passCheckpoint
      exact Finset.insert_subset (hL a (List.mem_cons_self a L)) hc
    · rw [if_neg hcond]
      exact hc

/-- C1: for an alive vehicle whose cleared set sits inside the checkpoint id
range (`totalCheckpoints` matching the track), a lap-validation tick
increments `currentLap` exactly when the finish line is crossed with the
cleared set (after this tick's checkpoint sweep) at full size; an incomplete
crossing leaves `currentLap` unchanged, and every increment empties the
cleared set. -/
theorem C1_lap_validation (track : Track) (car : CarState)
    (halive : car.isDead = false)
    (hsub : car.checkpointsCleared ⊆ Finset.range car.totalCheckpoints)
    (htot : car.totalCheckpoints = track.checkpoints.length) :
    ((checkCheckpointsStep track car).currentLap = car.currentLap + 1 ↔
      (checkFinishLine track car.lastPosition car.pos ∧
        (clearCheckpointsPass track car).checkpointsCleared.card = car.totalCheckpoints)) ∧
    (¬ (checkFinishLine track car.lastPosition car.pos ∧
        (clearCheckpointsPass track car).checkpointsCleared.card = car.totalCheckpoints) →
      (checkCheckpointsStep track car).currentLap = car.currentLap) ∧
    ((checkCheckpointsStep track car).currentLap = car.currentLap + 1 →
      (checkCheckpointsStep track car).checkpointsCleared = ∅) := by
  obtain ⟨s, hs⟩ := clearFold_shape track car.lastPosition car.pos
    (List.range track.checkpoints.length) car
  have hmid : clearCheckpointsPass track car = { car with checkpointsCleared := s } := hs
  have hCl : (clearCheckpointsPass track car).currentLap = car.currentLap := by rw [hmid]
  have hsubS : (clearCheckpointsPass track car).checkpointsCleared ⊆
      Finset.range car.totalCheckpoints := by
    refine clearFold_subset track car.lastPosition car.pos _ _ _ hsub ?_
    intro i hi
    rw [Finset.mem_range, htot]
    exact List.mem_range.mp hi
  have hcard : (clearCheckpointsPass track car).checkpointsCleared.card ≤
      car.totalCheckpoints := by
    have h1 := Finset.card_le_card hsubS
    simpa using h1
  have hstep : checkCheckpointsStep track car =
      { (if allCheckpointsCleared (clearCheckpointsPass track car) ∧
            checkFinishLine track car.lastPosition car.pos then
          (completeLap (clearCheckpointsPass track car)).1
        else clearCheckpointsPass track car) with lastPosition := car.pos } := by
    unfold checkCheckpointsStep
    rw [halive]
    rfl
  by_cases hfin : allCheckpointsCleared (clearCheckpointsPass track car) ∧
      checkFinishLine track car.lastPosition car.pos
  · have hge : car.totalCheckpoints ≤
        (clearCheckpointsPass track car).checkpointsCleared.card := by
      have h1 := hfin.1
      unfold allCheckpointsCleared at h1
      rw [hmid] at h1 ⊢
      exact h1
    have hctot : (clearCheckpointsPass track car).checkpointsCleared.card =
        car.totalCheckpoints := le_antisymm hcard hge
    have hcomp : completeLap (clearCheckpointsPass track car) =
        ({ car with currentLap := car.currentLap + 1, checkpointsCleared := ∅ }, true) := by
      have h1 : (clearCheckpointsPass track car).totalCheckpoints ≤
          (clearCheckpointsPass track car).checkpointsCleared.card := hfin.1
      unfold completeLap
      rw [if_pos h1, hmid]
    have hlap : checkCheckpointsStep track car =
        { car with currentLap := car.currentLap + 1, checkpointsCleared := ∅,
                   lastPosition := car.pos } := by
      rw [hstep, if_pos hfin, hcomp]
    refine ⟨?_, ?_, ?_⟩
    · rw [hlap]
      exact ⟨fun _ => ⟨hfin.2, hctot⟩, fun _ => rfl⟩
    · intro hcon
      exact absurd ⟨hfin.2, hctot⟩ hcon
    · intro _
      rw [hlap]
  · have hlap : checkCheckpointsStep track car =
        { car with checkpointsCleared := s, lastPosition := car.pos } := by
      rw [hstep, if_neg hfin, hmid]
    have hlap2 : (checkCheckpointsStep track car).currentLap = car.currentLap := by
      rw [hlap]
    refine ⟨?_, ?_, ?_⟩
    · rw [hlap2]
      constructor
      · intro hco
        exact absurd hco (by omega)
      · rintro ⟨hcross, hcd⟩
        exfalso
        apply hfin
        refine ⟨?_, hcross⟩
        unfold allCheckpointsCleared
        have hCt : (clearCheckpointsPass track car).totalCheckpoints =
            car.totalCheckpoints := by rw [hmid]
        rw [hCt, hcd]
    · intro _
      exact hlap2
    · intro hco
      rw [hlap2] at hco
      omega

/-- Helper: one collision-fold step either leaves the state alone or scales
the attacker's speed by `0.92`, arms the cooldown and appends one push aimed
at that remote player's id. -/
theorem collideStep_cases (st : CarState × List PushMsg) (a : ℕ × RemoteCar) :
    collideStep st a = st ∨
    ∃ m, collideStep st a =
        ({ st.1 with speed := st.1.speed * 0.92,
                     collisionCooldown := st.1.collisionCooldownTime },
          st.2 ++ [m]) ∧
      m.target = a.1 := by
  simp only [collideStep]
  by_cases h1 : a.2.isDead = true
  · left
    rw [if_pos h1]
  · rw [if_neg h1]
    by_cases h2 : dist3 st.1.pos a.2.pos <
        (st.1.collisionRadius + a.2.collisionRadius) * 1.3 ∧ st.1.collisionCooldown ≤ 0
    · right
      rw [if_pos h2]
      exact ⟨_, rfl, rfl⟩
    · left
      rw [if_neg h2]

/-- Helper: the collision fold only ever rewrites the attacker's speed and
collision cooldown (and emits messages); every other field, in particular
the attacker's position, passes through. -/
theorem collideFold_shape :
    ∀ (L : List (ℕ × RemoteCar)) (st : CarState × List PushMsg),
      ∃ sp cd msgs, L.foldl collideStep st =
        ({ st.1 with speed := sp, collisionCooldown := cd }, msgs) := by
  intro L
  induction L with
  | nil =>
    intro st
    exact ⟨st.1.speed, st.1.collisionCooldown, st.2, rfl⟩
  | cons a L ih =>
    intro st
    rcases collideStep_cases st a with hc | ⟨m, hc, _⟩
    · rw [List.foldl_cons, hc]
      exact ih st
    · obtain ⟨sp, cd, msgs, h⟩ :=
        ih ({ st.1 with speed := st.1.speed * 0.92,
                        collisionCooldown := st.1.collisionCooldownTime },
             st.2 ++ [m])
      refine ⟨sp, cd, msgs, ?_⟩
      rw [List.foldl_cons, hc, h]

/-- Helper: every push the collision fold emits beyond those already queued
targets one of the processed remote ids. -/
theorem collideFold_targets :
    ∀ (L : List (ℕ × RemoteCar)) (st : CarState × List PushMsg),
      ∀ m ∈ (L.foldl collideStep st).2, m ∈ st.2 ∨ m.target ∈ L.map Prod.fst := by
  intro L
  induction L with
  | nil =>
    intro st m hm
    exact Or.inl hm
  | cons a L ih =>
    intro st m hm
    rw [List.foldl_cons] at hm
    rcases collideStep_cases st a with hc | ⟨ma, hc, hma⟩
    · rw [hc] at hm
      rcases ih st m hm with h | h
      · exact Or.inl h
      · exact Or.inr (by rw [List.map_cons]; exact List.mem_cons_of_mem _ h)
    · rw [hc] at hm
      rcases ih _ m hm with h | h
      · rcases List.mem_append.mp h with h2 | h2
        · exact Or.inl h2
        · refine Or.inr ?_
          rw [List.map_cons]
          have hmm : m = ma := List.mem_singleton.mp h2
          rw [hmm, hma]
          exact List.mem_cons_self _ _
      · exact Or.inr (by rw [List.map_cons]; exact List.mem_cons_of_mem _ h)

/-- Helper: while the attacker's cooldown is strictly positive, the
collision fold changes nothing and emits nothing. -/
theorem collideFold_frozen :
    ∀ (L : List (ℕ × RemoteCar)) (st : CarState × List PushMsg),
      0 < st.1.collisionCooldown → L.foldl collideStep st = st := by
  intro L
  induction L with
  | nil =>
    intro st _
    rfl
  | cons a L ih =>
    intro st hpos
    have hc : collideStep st a = st := by
      simp only [collideStep]
      by_cases h1 : a.2.isDead = true
      · rw [if_pos h1]
      · rw [if_neg h1, if_neg]
        intro hcon
        exact absurd hcon.2 (not_le.mpr hpos)
    rw [List.foldl_cons, hc]
    exact ih st hpos

/-- Helper: with the cooldown expired and a positive cooldown duration, a
whole collision sweep produces at most one push, scaling the attacker's
speed by `0.92` exactly when it does. -/
theorem collideFold_once :
    ∀ (L : List (ℕ × RemoteCar)) (c : CarState) (msgs : List PushMsg),
      c.collisionCooldown ≤ 0 → 0 < c.collisionCooldownTime →
      L.foldl collideStep (c, msgs) = (c, msgs) ∨
      ∃ m, L.foldl collideStep (c, msgs) =
          ({ c with speed := c.speed * 0.92,
                    collisionCooldown := c.collisionCooldownTime },
            msgs ++ [m]) ∧
        m.target ∈ L.map Prod.fst := by
  intro L
  induction L with
  | nil =>
    intro c msgs _ _
    exact Or.inl rfl
  | cons a L ih =>
    intro c msgs h0 ht
    rcases collideStep_cases (c, msgs) a with hc | ⟨m, hc, hm⟩
    · rw [List.foldl_cons, hc]
      rcases ih c msgs h0 ht with h | ⟨m, h, hmem⟩
      · exact Or.inl h
      · exact Or.inr ⟨m, h, by rw [List.map_cons]; exact List.mem_cons_of_mem _ hmem⟩
    · refine Or.inr ⟨m, ?_, ?_⟩
      · rw [List.foldl_cons, hc]
        exact collideFold_frozen L _ ht
      · rw [List.map_cons, hm]
        exact List.mem_cons_self _ _

/-- C10: vehicle-vehicle collision processing never changes any lives: the
attacker-side sweep `_checkCollisions` and the received-push handler
`_handleCollisionPush` both preserve `lives` and `isDead`, while `loseLife`
is the operation that decrements lives. -/
theorem C10_collision_never_touches_lives :
    (∀ (car : CarState) (remotes : List (ℕ × RemoteCar)) (dt : ℝ),
      (checkCollisionsStep car remotes dt).1.lives = car.lives ∧
      (checkCollisionsStep car remotes dt).1.isDead = car.isDead) ∧
    (∀ (localId msgTarget : ℕ) (force : Vec3) (car : CarState),
      (handleCollisionPushStep localId msgTarget force car).lives = car.lives ∧
      (handleCollisionPushStep localId msgTarget force car).isDead = car.isDead) ∧
    (∀ car : CarState, (loseLife car).lives = car.lives - 1) := by
  refine ⟨?_, ?_, ?_⟩
  · intro car remotes dt
    simp only [checkCollisionsStep]
    by_cases hd : car.isDead = true
    · rw [if_pos hd]
      exact ⟨rfl, rfl⟩
    · rw [if_neg hd]
      obtain ⟨sp, cd, msgs, h⟩ := collideFold_shape remotes
        ((if 0 < car.collisionCooldown then
            { car with collisionCooldown := car.collisionCooldown - dt }
          else car), [])
      rw [h]
      constructor
      · show (if 0 < car.collisionCooldown then
            { car with collisionCooldown := car.collisionCooldown - dt }
          else car).lives = car.lives
        split_ifs <;> rfl
      · show (if 0 < car.collisionCooldown then
            { car with collisionCooldown := car.collisionCooldown - dt }
          else car).isDead = car.isDead
        split_ifs <;> rfl
  · intro localId msgTarget force car
    simp only [handleCollisionPushStep]
    split_ifs <;> exact ⟨rfl, rfl⟩
  · intro car
    rfl

/-- C4 counterexample: in the embedded variant a `collision_push` received
for one's own vehicle is applied directly to the position — the vehicle is
snapped by the full force vector — rather than added to a decaying knockback
velocity. -/
theorem C4_counterexample :
    (handleCollisionPushStep 0 0 ⟨2, 0, 0⟩ exCar).pos ≠ exCar.pos ∧
    (handleCollisionPushStep 0 0 ⟨2, 0, 0⟩ exCar).pos = vadd exCar.pos ⟨2, 0, 0⟩ ∧
    (handleCollisionPushStep 0 0 ⟨2, 0, 0⟩ exCar).speed = exCar.speed * 0.5 := by
  have hstep : handleCollisionPushStep 0 0 ⟨2, 0, 0⟩ exCar =
      { exCar with pos := vadd exCar.pos ⟨2, 0, 0⟩, speed := exCar.speed * 0.5 } := by
    unfold handleCollisionPushStep
    rw [if_pos ⟨rfl, rfl⟩]
  refine ⟨?_, by rw [hstep], by rw [hstep]⟩
  rw [hstep]
  show vadd exCar.pos ⟨2, 0, 0⟩ ≠ exCar.pos
  intro hcon
  have hx := congrArg Vec3.x hcon
  simp only [exCar, vadd] at hx
  norm_num at hx

/-- C4 (amended): the attacker-side collision trigger never displaces the
attacker (only its speed and cooldown fields change, the speed by the fixed
factor `0.92`), every emitted impulse targets a registered remote id, a
positive cooldown suppresses all impulses, and an expired cooldown yields at
most one impulse per sweep; a push received for one's own vehicle is applied
directly to the position (not to a knockback velocity) and halves the speed,
while pushes for other targets are ignored. -/
theorem C4_collision_asymmetry (car : CarState) (remotes : List (ℕ × RemoteCar))
    (dt : ℝ) (localId msgTarget : ℕ) (force : Vec3)
    (halive : car.isDead = false) (hct : 0 < car.collisionCooldownTime) :
    (∃ sp cd, (checkCollisionsStep car remotes dt).1 =
      { car with speed := sp, collisionCooldown := cd }) ∧
    (∀ m ∈ (checkCollisionsStep car remotes dt).2, m.target ∈ remotes.map Prod.fst) ∧
    (0 < car.collisionCooldown → dt < car.collisionCooldown →
      checkCollisionsStep car remotes dt =
        ({ car with collisionCooldown := car.collisionCooldown - dt }, [])) ∧
    (car.collisionCooldown ≤ 0 →
      checkCollisionsStep car remotes dt = (car, []) ∨
      ∃ m, checkCollisionsStep car remotes dt =
          ({ car with speed := car.speed * 0.92,
                      collisionCooldown := car.collisionCooldownTime }, [m]) ∧
        m.target ∈ remotes.map Prod.fst) ∧
    (handleCollisionPushStep localId localId force car =
      { car with pos := vadd car.pos force, speed := car.speed * 0.5 }) ∧
    (msgTarget ≠ localId →
      handleCollisionPushStep localId msgTarget force car = car) := by
  have hd : ¬ (car.isDead = true) := by
    rw [halive]
    exact Bool.false_ne_true
  have hmain : checkCollisionsStep car remotes dt =
      remotes.foldl collideStep
        ((if 0 < car.collisionCooldown then
            { car with collisionCooldown := car.collisionCooldown - dt }
          else car), []) := by
    simp only [checkCollisionsStep]
    rw [if_neg hd]
  refine ⟨?_, ?_, ?_, ?_, ?_, ?_⟩
  · obtain ⟨sp, cd, msgs, h⟩ := collideFold_shape remotes
      ((if 0 < car.collisionCooldown then
          { car with collisionCooldown := car.collisionCooldown - dt }
        else car), [])
    refine ⟨sp, cd, ?_⟩
    rw [hmain, h]
    split_ifs <;> rfl
  · intro m hm
    rw [hmain] at hm
    rcases collideFold_targets remotes _ m hm with h | h
    · exact absurd h (List.not_mem_nil m)
    · exact h
  · intro hpos hdt
    rw [hmain, if_pos hpos]
    exact collideFold_frozen remotes _ (by simpa using sub_pos.mpr hdt)
  · intro hexp
    rw [hmain, if_neg (not_lt.mpr hexp)]
    exact collideFold_once remotes car [] hexp hct
  · unfold handleCollisionPushStep
    rw [if_pos ⟨rfl, halive⟩]
  · intro hne
    unfold handleCollisionPushStep
    rw [if_neg]
    intro hcon
    exact hne hcon.1

/-- C4 witness: the example alive vehicle with one nearby remote player,
its cooldown expired and a positive cooldown duration. -/
theorem C4_collision_asymmetry_witness :
    exCar.isDead = false ∧ 0 < exCar.collisionCooldownTime ∧
    ((∃ sp cd, (checkCollisionsStep exCar [(1, exRemote)] 0.016).1 =
      { exCar with speed := sp, collisionCooldown := cd }) ∧
    (∀ m ∈ (checkCollisionsStep exCar [(1, exRemote)] 0.016).2,
      m.target ∈ [(1, exRemote)].map Prod.fst) ∧
    (0 < exCar.collisionCooldown → 0.016 < exCar.collisionCooldown →
      checkCollisionsStep exCar [(1, exRemote)] 0.016 =
        ({ exCar with collisionCooldown := exCar.collisionCooldown - 0.016 }, [])) ∧
    (exCar.collisionCooldown ≤ 0 →
      checkCollisionsStep exCar [(1, exRemote)] 0.016 = (exCar, []) ∨
      ∃ m, checkCollisionsStep exCar [(1, exRemote)] 0.016 =
          ({ exCar with speed := exCar.speed * 0.92,
                        collisionCooldown := exCar.collisionCooldownTime }, [m]) ∧
        m.target ∈ [(1, exRemote)].map Prod.fst) ∧
    (handleCollisionPushStep 0 0 ⟨1, 0, 0⟩ exCar =
      { exCar with pos := vadd exCar.pos ⟨1, 0, 0⟩, speed := exCar.speed * 0.5 }) ∧
    (1 ≠ 0 →
      handleCollisionPushStep 0 1 ⟨1, 0, 0⟩ exCar = exCar)) :=
  ⟨rfl, by norm_num [exCar],
    C4_collision_asymmetry exCar [(1, exRemote)] 0.016 0 1 ⟨1, 0, 0⟩ rfl
      (by norm_num [exCar])⟩

/-- C1 witness: the example track and alive vehicle satisfy the
hypotheses, and the lap-validation tick obeys the characterization. -/
theorem C1_lap_validation_witness :
    exCar.isDead = false ∧
    exCar.checkpointsCleared ⊆ Finset.range exCar.totalCheckpoints ∧
    exCar.totalCheckpoints = exTrack.checkpoints.length ∧
    (((checkCheckpointsStep exTrack exCar).currentLap = exCar.currentLap + 1 ↔
      (checkFinishLine exTrack exCar.lastPosition exCar.pos ∧
        (clearCheckpointsPass exTrack exCar).checkpointsCleared.card =
          exCar.totalCheckpoints)) ∧
    (¬ (checkFinishLine exTrack exCar.lastPosition exCar.pos ∧
        (clearCheckpointsPass exTrack exCar).checkpointsCleared.card =
          exCar.totalCheckpoints) →
      (checkCheckpointsStep exTrack exCar).currentLap = exCar.currentLap) ∧
    ((checkCheckpointsStep exTrack exCar).currentLap = exCar.currentLap + 1 →
      (checkCheckpointsStep exTrack exCar).checkpointsCleared = ∅)) :=
  ⟨rfl, by simp [exCar], rfl,
    C1_lap_validation exTrack exCar rfl (by simp [exCar]) rfl⟩

/-- C2 counterexample: `Car.followTrackSurface` passes no segment hint, so
even when the vehicle's segment is known (say segment 1 of the example
ring), the per-tick query searches the bounding-box candidates (`[0]`
here), not the hinted segment and its two neighbors (`[1, 0, 2]`). -/
theorem C2_counterexample :
    followTrackSurfaceSearch exSegs exQueryPos ≠
      [1, (exSegs.getD 1 defaultSeg).prevSegment, (exSegs.getD 1 defaultSeg).nextSegment] ∧
    followTrackSurfaceSearch exSegs exQueryPos = [0] ∧
    segmentsToSearch exSegs (some 1) exQueryPos = [1, 0, 2] := by
  have heval : followTrackSurfaceSearch exSegs exQueryPos = [0] := by
    simp only [followTrackSurfaceSearch, segmentsToSearch, bboxCandidates]
    have hlen : exSegs.length = 3 := by simp [exSegs]
    rw [hlen]
    have hr : List.range 3 = [0, 1, 2] := by decide
    rw [hr]
    have hfil : List.filter
        (fun i => decide (boundsContain ((exSegs.getD i defaultSeg).bounds) exQueryPos))
        [0, 1, 2] = [0] := by
      simp only [List.filter]
      rw [decide_eq_true (show boundsContain ((exSegs.getD 0 defaultSeg).bounds) exQueryPos by
            simp only [exSegs, exSegA, boundsContain, exQueryPos, List.getD]
            norm_num),
          decide_eq_false (show ¬ boundsContain ((exSegs.getD 1 defaultSeg).bounds) exQueryPos by
            simp only [exSegs, exSegB, boundsContain, exQueryPos, List.getD]
            norm_num),
          decide_eq_false (show ¬ boundsContain ((exSegs.getD 2 defaultSeg).bounds) exQueryPos by
            simp only [exSegs, exSegC, boundsContain, exQueryPos, List.getD]
            norm_num)]
    rw [hfil]
    rw [if_neg (by simp)]
  refine ⟨?_, heval, ?_⟩
  · rw [heval]
    simp
  · simp only [segmentsToSearch]
    rw [if_pos (by simp [exSegs])]
    simp [exSegs, exSegB, List.getD]

/-- C2 (amended): `getTrackSurfaceAt`'s candidate selection searches exactly
the hinted segment and its two neighbors when a valid hint is supplied, and
otherwise the bounding-box pre-filter over all segments (all ids when no box
matches, so the candidate list is never empty on a nonempty track); however
the per-tick call in `Car.followTrackSurface` supplies no hint, so the
fallback path is the one used every tick. -/
theorem C2_hinted_search (segs : List TrackSegment) (pos : Vec3) :
    (∀ k, k < segs.length →
      segmentsToSearch segs (some k) pos =
        [k, (segs.getD k defaultSeg).prevSegment, (segs.getD k defaultSeg).nextSegment]) ∧
    ((∃ j, j < segs.length ∧ boundsContain (segs.getD j defaultSeg).bounds pos) →
      ∀ i, i ∈ segmentsToSearch segs none pos ↔
        (i < segs.length ∧ boundsContain (segs.getD i defaultSeg).bounds pos)) ∧
    ((¬ ∃ j, j < segs.length ∧ boundsContain (segs.getD j defaultSeg).bounds pos) →
      segmentsToSearch segs none pos = List.range segs.length) ∧
    followTrackSurfaceSearch segs pos = segmentsToSearch segs none pos ∧
    (segs ≠ [] → segmentsToSearch segs none pos ≠ []) := by
  refine ⟨?_, ?_, ?_, rfl, ?_⟩
  · intro k hk
    simp only [segmentsToSearch]
    rw [if_pos hk]
  · rintro ⟨j, hj, hbox⟩ i
    simp only [segmentsToSearch, bboxCandidates]
    have hjmem : j ∈ List.filter
        (fun i => decide (boundsContain ((segs.getD i defaultSeg).bounds) pos))
        (List.range segs.length) := by
      rw [List.mem_filter]
      exact ⟨List.mem_range.mpr hj, decide_eq_true hbox⟩
    rw [if_neg (List.ne_nil_of_mem hjmem)]
    rw [List.mem_filter, List.mem_range, decide_eq_true_eq]
  · intro hno
    simp only [segmentsToSearch, bboxCandidates]
    rw [if_pos]
    rw [List.filter_eq_nil_iff]
    intro a ha
    rw [decide_eq_true_eq]
    intro hbox
    exact hno ⟨a, List.mem_range.mp ha, hbox⟩
  · intro hne
    simp only [segmentsToSearch, bboxCandidates]
    by_cases hf : List.filter
        (fun i => decide (boundsContain ((segs.getD i defaultSeg).bounds) pos))
        (List.range segs.length) = []
    · rw [if_pos hf]
      intro hcon
      rw [List.range_eq_nil] at hcon
      exact hne (List.length_eq_zero.mp hcon)
    · rw [if_neg hf]
      exact hf

/-- C2 witness: on the example ring, hint 1 yields `[1, 0, 2]`, the no-hint
box filter finds segment 0, and the candidate list is nonempty. -/
theorem C2_hinted_search_witness :
    ((1 : ℕ) < exSegs.length ∧
      segmentsToSearch exSegs (some 1) exQueryPos =
        [1, (exSegs.getD 1 defaultSeg).prevSegment, (exSegs.getD 1 defaultSeg).nextSegment]) ∧
    ((∃ j, j < exSegs.length ∧ boundsContain (exSegs.getD j defaultSeg).bounds exQueryPos) ∧
      ((0 : ℕ) ∈ segmentsToSearch exSegs none exQueryPos ↔
        ((0 : ℕ) < exSegs.length ∧
          boundsContain (exSegs.getD 0 defaultSeg).bounds exQueryPos))) ∧
    followTrackSurfaceSearch exSegs exQueryPos = segmentsToSearch exSegs none exQueryPos ∧
    (exSegs ≠ [] ∧ segmentsToSearch exSegs none exQueryPos ≠ []) := by
  have hbox : boundsContain ((exSegs.getD 0 defaultSeg).bounds) exQueryPos := by
    simp only [exSegs, exSegA, boundsContain, exQueryPos, List.getD]
    norm_num
  have h1 : (1 : ℕ) < exSegs.length := by simp [exSegs]
  have hne : exSegs ≠ [] := by simp [exSegs]
  exact ⟨⟨h1, (C2_hinted_search exSegs exQueryPos).1 1 h1⟩,
    ⟨⟨0, by simp [exSegs], hbox⟩,
      (C2_hinted_search exSegs exQueryPos).2.1 ⟨0, by simp [exSegs], hbox⟩ 0⟩,
    (C2_hinted_search exSegs exQueryPos).2.2.2.1,
    hne, (C2_hinted_search exSegs exQueryPos).2.2.2.2 hne⟩

/-- C8 counterexample: with a received target rotation of `10` radians and a
current rotation of `0`, the single-step wrap leaves an angular difference of
`10 - 2π ≈ 3.72 > π`, which the interpolation then applies — the shortest
path (the representative `10 - 4π ∈ [-π, π]`) goes the other way, so the
difference is not wrapped into `±π`. -/
theorem C8_counterexample :
    (interpolateStep exCarRot 0).rotY = exCarRot.rotY + (10 - Real.pi * 2) * 0.25 ∧
    Real.pi < 10 - Real.pi * 2 ∧
    |10 - Real.pi * 4| ≤ Real.pi ∧
    10 - Real.pi * 4 ≠ 10 - Real.pi * 2 := by
  have hpi1 : Real.pi < 3.15 := Real.pi_lt_d2
  have hpi2 : 3 < Real.pi := Real.pi_gt_three
  have h1 : exCarRot.targetRot - exCarRot.rotY > Real.pi := by
    show (10 : ℝ) - 0 > Real.pi
    nlinarith
  have h2 : ¬ (exCarRot.targetRot - exCarRot.rotY - Real.pi * 2 < -Real.pi) := by
    show ¬ ((10 : ℝ) - 0 - Real.pi * 2 < -Real.pi)
    push_neg
    nlinarith
  refine ⟨?_, by nlinarith, abs_le.mpr ⟨by nlinarith, by nlinarith⟩, by nlinarith⟩
  show exCarRot.rotY +
      (if (if exCarRot.targetRot - exCarRot.rotY > Real.pi then
             exCarRot.targetRot - exCarRot.rotY - Real.pi * 2
           else exCarRot.targetRot - exCarRot.rotY) < -Real.pi then
         (if exCarRot.targetRot - exCarRot.rotY > Real.pi then
            exCarRot.targetRot - exCarRot.rotY - Real.pi * 2
          else exCarRot.targetRot - exCarRot.rotY) + Real.pi * 2
       else
         (if exCarRot.targetRot - exCarRot.rotY > Real.pi then
            exCarRot.targetRot - exCarRot.rotY - Real.pi * 2
          else exCarRot.targetRot - exCarRot.rotY)) * 0.25 =
    exCarRot.rotY + (10 - Real.pi * 2) * 0.25
  rw [if_pos h1, if_neg h2]
  have h3 : exCarRot.targetRot - exCarRot.rotY - Real.pi * 2 = 10 - Real.pi * 2 := by
    show (10 : ℝ) - 0 - Real.pi * 2 = 10 - Real.pi * 2
    ring
  rw [h3]

/-- C8 (amended): each interpolation tick lerps the rendered position 30% of
the way toward the velocity-predicted target — the distance to the predicted
point contracts by the factor `0.7`, so the vehicle converges and never
overshoots — and, provided the raw angular difference lies within
`[-3π, 3π]`, the rotation advances by 25% of a `±2π`-wrapped difference that
lies in `[-π, π]` (the single-step wrap is not a full shortest-path
reduction outside that band). -/
theorem C8_interpolation_convergence (car : CarState) (dt : ℝ)
    (hlo : -(3 * Real.pi) ≤ car.targetRot - car.rotY)
    (hhi : car.targetRot - car.rotY ≤ 3 * Real.pi) :
    (interpolateStep car dt).pos =
      vlerp car.pos (vadd car.targetPos (vsmul (dt * 2) car.velocity)) 0.3 ∧
    dist3 (interpolateStep car dt).pos
        (vadd car.targetPos (vsmul (dt * 2) car.velocity)) =
      0.7 * dist3 car.pos (vadd car.targetPos (vsmul (dt * 2) car.velocity)) ∧
    dist3 (interpolateStep car dt).pos
        (vadd car.targetPos (vsmul (dt * 2) car.velocity)) ≤
      dist3 car.pos (vadd car.targetPos (vsmul (dt * 2) car.velocity)) ∧
    ∃ w : ℝ,
      (w = car.targetRot - car.rotY ∨ w = car.targetRot - car.rotY - 2 * Real.pi ∨
        w = car.targetRot - car.rotY + 2 * Real.pi) ∧
      -Real.pi ≤ w ∧ w ≤ Real.pi ∧
      (interpolateStep car dt).rotY = car.rotY + w * 0.25 := by
  have hpi : 0 < Real.pi := Real.pi_pos
  have hsq : Real.sqrt 0.49 = 0.7 := by
    rw [show (0.49 : ℝ) = 0.7 ^ 2 by norm_num]
    exact Real.sqrt_sq (by norm_num)
  have hcontract : dist3 (interpolateStep car dt).pos
      (vadd car.targetPos (vsmul (dt * 2) car.velocity)) =
      0.7 * dist3 car.pos (vadd car.targetPos (vsmul (dt * 2) car.velocity)) := by
    unfold dist3 len3
    have hdot : dot3
        (vsub (interpolateStep car dt).pos
          (vadd car.targetPos (vsmul (dt * 2) car.velocity)))
        (vsub (interpolateStep car dt).pos
          (vadd car.targetPos (vsmul (dt * 2) car.velocity))) =
        0.49 * dot3
          (vsub car.pos (vadd car.targetPos (vsmul (dt * 2) car.velocity)))
          (vsub car.pos (vadd car.targetPos (vsmul (dt * 2) car.velocity))) := by
      show dot3
        (vsub (vlerp car.pos (vadd car.targetPos (vsmul (dt * 2) car.velocity)) 0.3)
          (vadd car.targetPos (vsmul (dt * 2) car.velocity)))
        (vsub (vlerp car.pos (vadd car.targetPos (vsmul (dt * 2) car.velocity)) 0.3)
          (vadd car.targetPos (vsmul (dt * 2) car.velocity))) = _
      simp only [vlerp, vadd, vsub, vsmul, dot3]
      ring
    rw [hdot, Real.sqrt_mul (by norm_num), hsq]
  refine ⟨rfl, hcontract, ?_, ?_⟩
  · rw [hcontract]
    have hnn : 0 ≤ dist3 car.pos (vadd car.targetPos (vsmul (dt * 2) car.velocity)) := by
      unfold dist3 len3
      exact Real.sqrt_nonneg _
    nlinarith
  · have hrot : (interpolateStep car dt).rotY =
        car.rotY +
          (if (if car.targetRot - car.rotY > Real.pi then
                 car.targetRot - car.rotY - Real.pi * 2
               else car.targetRot - car.rotY) < -Real.pi then
             (if car.targetRot - car.rotY > Real.pi then
                car.targetRot - car.rotY - Real.pi * 2
              else car.targetRot - car.rotY) + Real.pi * 2
           else
             (if car.targetRot - car.rotY > Real.pi then
                car.targetRot - car.rotY - Real.pi * 2
              else car.targetRot - car.rotY)) * 0.25 := rfl
    by_cases h1 : car.targetRot - car.rotY > Real.pi
    · refine ⟨car.targetRot - car.rotY - 2 * Real.pi, Or.inr (Or.inl rfl),
        by linarith, by linarith, ?_⟩
      rw [hrot, if_pos h1, if_neg (by push_neg; linarith)]
      ring_nf
    · by_cases h2 : car.targetRot - car.rotY < -Real.pi
      · refine ⟨car.targetRot - car.rotY + 2 * Real.pi, Or.inr (Or.inr rfl),
          by linarith, by linarith, ?_⟩
        rw [hrot, if_neg h1, if_pos h2]
        ring_nf
      · refine ⟨car.targetRot - car.rotY, Or.inl rfl, by linarith, by linarith, ?_⟩
        rw [hrot, if_neg h1, if_neg h2]

/-- Helper: the wrap loops land in `[-π, π]`. -/
theorem wrapToPi_bounds (d : ℝ) : -Real.pi ≤ wrapToPi d ∧ wrapToPi d ≤ Real.pi := by
  have h2pi : (0:ℝ) < 2 * Real.pi := by positivity
  unfold wrapToPi
  by_cases h1 : Real.pi < d
  · rw [if_pos h1]
    have hk1 : (d - Real.pi) / (2 * Real.pi) ≤ (⌈(d - Real.pi) / (2 * Real.pi)⌉ : ℝ) :=
      Int.le_ceil _
    have hk2 : (⌈(d - Real.pi) / (2 * Real.pi)⌉ : ℝ) < (d - Real.pi) / (2 * Real.pi) + 1 :=
      Int.ceil_lt_add_one _
    have h3 : (d - Real.pi) / (2 * Real.pi) * (2 * Real.pi) = d - Real.pi :=
      div_mul_cancel₀ _ (ne_of_gt h2pi)
    constructor
    · nlinarith
    · nlinarith
  · rw [if_neg h1]
    by_cases h2 : d < -Real.pi
    · rw [if_pos h2]
      have hk1 : (-Real.pi - d) / (2 * Real.pi) ≤ (⌈(-Real.pi - d) / (2 * Real.pi)⌉ : ℝ) :=
        Int.le_ceil _
      have hk2 : (⌈(-Real.pi - d) / (2 * Real.pi)⌉ : ℝ) < (-Real.pi - d) / (2 * Real.pi) + 1 :=
        Int.ceil_lt_add_one _
      have h3 : (-Real.pi - d) / (2 * Real.pi) * (2 * Real.pi) = -Real.pi - d :=
        div_mul_cancel₀ _ (ne_of_gt h2pi)
      constructor
      · nlinarith
      · nlinarith
    · rw [if_neg h2]
      push_neg at h1 h2
      exact ⟨h2, h1⟩

/-- Helper: the wrap loops change the angle by an exact multiple of `2π`. -/
theorem wrapToPi_congruence (d : ℝ) : ∃ k : ℤ, wrapToPi d = d - 2 * Real.pi * k := by
  unfold wrapToPi
  by_cases h1 : Real.pi < d
  · rw [if_pos h1]
    exact ⟨⌈(d - Real.pi) / (2 * Real.pi)⌉, rfl⟩
  · rw [if_neg h1]
    by_cases h2 : d < -Real.pi
    · rw [if_pos h2]
      refine ⟨-⌈(-Real.pi - d) / (2 * Real.pi)⌉, ?_⟩
      push_cast
      ring
    · rw [if_neg h2]
      refine ⟨0, ?_⟩
      push_cast
      ring

/-- C5: whenever the boundary check reports a collision for the alive local
vehicle, the resolver displaces it by `correctionVector * min(penetration *
1.5, 1.0)`, multiplies the speed by the fixed fraction `0.7`, and turns the
heading by 20% of an angular difference toward `atan2(correction.x,
correction.z)` that is wrapped into `[-π, π]` and congruent to the raw
difference modulo `2π` (shortest-angle interpolation). -/
theorem C5_wall_response (track : Track) (car : CarState) (hit : WallHit)
    (halive : car.isDead = false)
    (hcol : checkWallCollision track car.pos = some hit) :
    checkWallCollisionsStep track car = wallResponseStep car hit ∧
    (wallResponseStep car hit).pos =
      vadd car.pos (vsmul (min (hit.penetrationDepth * 1.5) 1.0) hit.correctionVector) ∧
    (wallResponseStep car hit).speed = car.speed * 0.7 ∧
    (wallResponseStep car hit).rotY =
      car.rotY +
        wrapToPi (atan2 hit.correctionVector.x hit.correctionVector.z - car.rotY) * 0.2 ∧
    -Real.pi ≤ wrapToPi (atan2 hit.correctionVector.x hit.correctionVector.z - car.rotY) ∧
    wrapToPi (atan2 hit.correctionVector.x hit.correctionVector.z - car.rotY) ≤ Real.pi ∧
    ∃ k : ℤ, wrapToPi (atan2 hit.correctionVector.x hit.correctionVector.z - car.rotY) =
      atan2 hit.correctionVector.x hit.correctionVector.z - car.rotY - 2 * Real.pi * k := by
  have hd : ¬ (car.isDead = true) := by
    rw [halive]
    exact Bool.false_ne_true
  refine ⟨?_, rfl, rfl, rfl, (wrapToPi_bounds _).1, (wrapToPi_bounds _).2,
    wrapToPi_congruence _⟩
  simp only [checkWallCollisionsStep]
  rw [if_neg hd, hcol]

/-- Helper: a result produced by the wall-scan fold is either the starting
accumulator or is achieved by one of the scanned edges. -/
theorem wallScanFold_achieve (pts : List Vec3) (pos : Vec3) :
    ∀ (L : List ℕ) (st : Option (ℝ × ℕ × ℝ)) (d : ℝ) (i : ℕ) (t : ℝ),
      L.foldl (wallScanStep pts pos) st = some (d, i, t) →
      st = some (d, i, t) ∨ (i ∈ L ∧ edgeProj pts pos i = some (d, t)) := by
  intro L
  induction L with
  | nil =>
    intro st d i t h
    exact Or.inl h
  | cons a L ih =>
    intro st d i t h
    rw [List.foldl_cons] at h
    rcases hea : edgeProj pts pos a with _ | ⟨da, ta⟩
    · have hstep : wallScanStep pts pos st a = st := by
        simp only [wallScanStep, hea]
      rw [hstep] at h
      rcases ih st d i t h with h1 | ⟨hm, he⟩
      · exact Or.inl h1
      · exact Or.inr ⟨List.mem_cons_of_mem _ hm, he⟩
    · rcases st with _ | ⟨⟨d0, i0, t0⟩⟩
      · have hstep : wallScanStep pts pos none a = some (da, a, ta) := by
          simp only [wallScanStep, hea]
        rw [hstep] at h
        rcases ih _ d i t h with h1 | ⟨hm, he⟩
        · simp only [Option.some.injEq, Prod.mk.injEq] at h1
          obtain ⟨hd, hi, ht⟩ := h1
          refine Or.inr ⟨?_, ?_⟩
          · rw [← hi]
            exact List.mem_cons_self _ _
          · rw [← hi, hea, hd, ht]
        · exact Or.inr ⟨List.mem_cons_of_mem _ hm, he⟩
      · by_cases hlt : da < d0
        · have hstep : wallScanStep pts pos (some (d0, i0, t0)) a = some (da, a, ta) := by
            simp only [wallScanStep, hea]
            rw [if_pos hlt]
          rw [hstep] at h
          rcases ih _ d i t h with h1 | ⟨hm, he⟩
          · simp only [Option.some.injEq, Prod.mk.injEq] at h1
            obtain ⟨hd, hi, ht⟩ := h1
            refine Or.inr ⟨?_, ?_⟩
            · rw [← hi]
              exact List.mem_cons_self _ _
            · rw [← hi, hea, hd, ht]
          · exact Or.inr ⟨List.mem_cons_of_mem _ hm, he⟩
        · have hstep : wallScanStep pts pos (some (d0, i0, t0)) a = some (d0, i0, t0) := by
            simp only [wallScanStep, hea]
            rw [if_neg hlt]
          rw [hstep] at h
          rcases ih _ d i t h with h1 | ⟨hm, he⟩
          · exact Or.inl h1
          · exact Or.inr ⟨List.mem_cons_of_mem _ hm, he⟩

/-- Helper: the wall-scan fold's distance is a lower bound of every scanned
edge's distance and of the starting accumulator's distance. -/
theorem wallScanFold_min (pts : List Vec3) (pos : Vec3) :
    ∀ (L : List ℕ) (st : Option (ℝ × ℕ × ℝ)) (d : ℝ) (i : ℕ) (t : ℝ),
      L.foldl (wallScanStep pts pos) st = some (d, i, t) →
      (∀ j ∈ L, ∀ dj tj, edgeProj pts pos j = some (dj, tj) → d ≤ dj) ∧
      (∀ d0 i0 t0, st = some (d0, i0, t0) → d ≤ d0) := by
  intro L
  induction L with
  | nil =>
    intro st d i t h
    rw [List.foldl_nil] at h
    refine ⟨fun j hj => absurd hj (List.not_mem_nil j), ?_⟩
    intro d0 i0 t0 h0
    rw [h0] at h
    simp only [Option.some.injEq, Prod.mk.injEq] at h
    rw [← h.1]
  | cons a L ih =>
    intro st d i t h
    rw [List.foldl_cons] at h
    rcases hea : edgeProj pts pos a with _ | ⟨da, ta⟩
    · have hstep : wallScanStep pts pos st a = st := by
        simp only [wallScanStep, hea]
      rw [hstep] at h
      obtain ⟨hL, hst⟩ := ih st d i t h
      refine ⟨?_, hst⟩
      intro j hj dj tj hej
      rcases List.mem_cons.mp hj with hja | hjL
      · rw [hja, hea] at hej
        exact Option.noConfusion hej
      · exact hL j hjL dj tj hej
    · rcases st with _ | ⟨⟨d0, i0, t0⟩⟩
      · have hstep : wallScanStep pts pos none a = some (da, a, ta) := by
          simp only [wallScanStep, hea]
        rw [hstep] at h
        obtain ⟨hL, hst⟩ := ih _ d i t h
        have hda : d ≤ da := hst da a ta rfl
        refine ⟨?_, ?_⟩
        · intro j hj dj tj hej
          rcases List.mem_cons.mp hj with hja | hjL
          · rw [hja, hea] at hej
            simp only [Option.some.injEq, Prod.mk.injEq] at hej
            rw [← hej.1]
            exact hda
          · exact hL j hjL dj tj hej
        · intro d0 i0 t0 h0
          exact Option.noConfusion h0
      · by_cases hlt : da < d0
        · have hstep : wallScanStep pts pos (some (d0, i0, t0)) a = some (da, a, ta) := by
            simp only [wallScanStep, hea]
            rw [if_pos hlt]
          rw [hstep] at h
          obtain ⟨hL, hst⟩ := ih _ d i t h
          have hda : d ≤ da := hst da a ta rfl
          refine ⟨?_, ?_⟩
          · intro j hj dj tj hej
            rcases List.mem_cons.mp hj with hja | hjL
            · rw [hja, hea] at hej
              simp only [Option.some.injEq, Prod.mk.injEq] at hej
              rw [← hej.1]
              exact hda
            · exact hL j hjL dj tj hej
          · intro d0' i0' t0' h0
            simp only [Option.some.injEq, Prod.mk.injEq] at h0
            rw [← h0.1]
            exact le_of_lt (lt_of_le_of_lt hda hlt)
        · have hstep : wallScanStep pts pos (some (d0, i0, t0)) a = some (d0, i0, t0) := by
            simp only [wallScanStep, hea]
            rw [if_neg hlt]
          rw [hstep] at h
          obtain ⟨hL, hst⟩ := ih _ d i t h
          have hd0 : d ≤ d0 := hst d0 i0 t0 rfl
          refine ⟨?_, ?_⟩
          · intro j hj dj tj hej
            rcases List.mem_cons.mp hj with hja | hjL
            · rw [hja, hea] at hej
              simp only [Option.some.injEq, Prod.mk.injEq] at hej
              rw [← hej.1]
              exact le_trans hd0 (not_lt.mp hlt)
            · exact hL j hjL dj tj hej
          · intro d0' i0' t0' h0
            simp only [Option.some.injEq, Prod.mk.injEq] at h0
            rw [← h0.1]
            exact hd0

/-- Helper: an edge-scan entry's distance is the 2D distance from the query
to the closest-point recomputation at the stored parameter. -/
theorem edgeProj_some (pts : List Vec3) (pos : Vec3) (i : ℕ) (d t : ℝ)
    (h : edgeProj pts pos i = some (d, t)) :
    d = dist2D pos (closestPointOf pts i t) := by
  simp only [edgeProj] at h
  by_cases hl0 : len3 (vsub (pts.getD ((i + 1) % pts.length) ⟨0, 0, 0⟩)
      (pts.getD i ⟨0, 0, 0⟩)) = 0
  · rw [if_pos hl0] at h
    exact Option.noConfusion h
  · rw [if_neg hl0] at h
    simp only [Option.some.injEq, Prod.mk.injEq] at h
    obtain ⟨hdist, ht⟩ := h
    simp only [closestPointOf]
    rw [← ht]
    exact hdist.symm

/-- Helper: the 2D length of the y-zeroed difference vector equals the 2D
distance. -/
theorem len3_xz (a b : Vec3) : len3 ⟨b.x - a.x, 0, b.z - a.z⟩ = dist2D a b := by
  unfold len3 dot3 dist2D
  congr 1
  ring

/-- C3: with the wall scan producing distance `d` at edge `i`, parameter
`t`: `d` is the 2D distance to the clamped projection on edge `i` and is
globally minimal over all edges; `checkWallCollision` returns null iff
`d ≤ halfWidth - vehicleRadius`; for a query strictly outside, the
penetration depth is the excess `d - (halfWidth - vehicleRadius)` (strictly
positive, and exactly 2 at 2 units outside) and the correction vector is a
2D-unit vector with zero `y` pointing from the query toward the closest
centerline point. -/
theorem C3_wall_boundary (track : Track) (pos : Vec3) (d : ℝ) (i : ℕ) (t : ℝ)
    (h2 : 2 ≤ track.skeletonPoints.length)
    (hw : 2 ≤ track.trackWidth)
    (hscan : wallScan track.skeletonPoints pos = some (d, i, t)) :
    edgeProj track.skeletonPoints pos i = some (d, t) ∧
    (∀ j, j < track.skeletonPoints.length → ∀ dj tj,
      edgeProj track.skeletonPoints pos j = some (dj, tj) → d ≤ dj) ∧
    (checkWallCollision track pos = none ↔ d ≤ track.trackWidth / 2 - 1) ∧
    (∀ hit, checkWallCollision track pos = some hit →
      hit.penetrationDepth = d - (track.trackWidth / 2 - 1) ∧
      0 < hit.penetrationDepth ∧
      hit.closestPoint = closestPointOf track.skeletonPoints i t ∧
      hit.correctionVector.y = 0 ∧
      hit.correctionVector.x ^ 2 + hit.correctionVector.z ^ 2 = 1 ∧
      hit.correctionVector.x * d = hit.closestPoint.x - pos.x ∧
      hit.correctionVector.z * d = hit.closestPoint.z - pos.z ∧
      (d = (track.trackWidth / 2 - 1) + 2 → hit.penetrationDepth = 2)) := by
  have hach : edgeProj track.skeletonPoints pos i = some (d, t) := by
    unfold wallScan at hscan
    rcases wallScanFold_achieve track.skeletonPoints pos _ none d i t hscan with
      h0 | ⟨_, he⟩
    · exact Option.noConfusion h0
    · exact he
  have hmin : ∀ j, j < track.skeletonPoints.length → ∀ dj tj,
      edgeProj track.skeletonPoints pos j = some (dj, tj) → d ≤ dj := by
    intro j hj dj tj hej
    unfold wallScan at hscan
    exact (wallScanFold_min track.skeletonPoints pos _ none d i t hscan).1
      j (List.mem_range.mpr hj) dj tj hej
  have hdeq : d = dist2D pos (closestPointOf track.skeletonPoints i t) :=
    edgeProj_some track.skeletonPoints pos i d t hach
  have hcw : checkWallCollision track pos =
      (if d > track.trackWidth / 2 - 1.0 then
        some { correctionVector := vnormalize
                 ⟨(closestPointOf track.skeletonPoints i t).x - pos.x, 0,
                  (closestPointOf track.skeletonPoints i t).z - pos.z⟩,
               penetrationDepth := d - (track.trackWidth / 2 - 1.0),
               closestPoint := closestPointOf track.skeletonPoints i t }
       else none) := by
    simp only [checkWallCollision]
    rw [if_neg (not_lt.mpr h2), hscan]
  have h10 : (1.0 : ℝ) = 1 := by norm_num
  rw [h10] at hcw
  refine ⟨hach, hmin, ?_, ?_⟩
  · rw [hcw]
    by_cases hgt : d > track.trackWidth / 2 - 1
    · rw [if_pos hgt]
      constructor
      · intro hcon
        exact Option.noConfusion hcon
      · intro hle
        exact absurd hle (not_le.mpr hgt)
    · rw [if_neg hgt]
      exact ⟨fun _ => not_lt.mp hgt, fun _ => rfl⟩
  · intro hit hhit
    rw [hcw] at hhit
    by_cases hgt : d > track.trackWidth / 2 - 1
    · rw [if_pos hgt] at hhit
      simp only [Option.some.injEq] at hhit
      have hd0 : 0 < d := lt_of_le_of_lt (by linarith) hgt
      have hlenD : len3 ⟨(closestPointOf track.skeletonPoints i t).x - pos.x, 0,
          (closestPointOf track.skeletonPoints i t).z - pos.z⟩ = d := by
        rw [len3_xz]
        exact hdeq.symm
      have hcorr : (vnormalize
          ⟨(closestPointOf track.skeletonPoints i t).x - pos.x, 0,
           (closestPointOf track.skeletonPoints i t).z - pos.z⟩) =
          vsmul (1 / d)
            ⟨(closestPointOf track.skeletonPoints i t).x - pos.x, 0,
             (closestPointOf track.skeletonPoints i t).z - pos.z⟩ := by
        unfold vnormalize
        rw [hlenD, if_neg (ne_of_gt hd0)]
      have hsq : ((closestPointOf track.skeletonPoints i t).x - pos.x) ^ 2 +
          ((closestPointOf track.skeletonPoints i t).z - pos.z) ^ 2 = d ^ 2 := by
        have hS : 0 ≤ (pos.x - (closestPointOf track.skeletonPoints i t).x) ^ 2 +
            (pos.z - (closestPointOf track.skeletonPoints i t).z) ^ 2 := by positivity
        have := Real.sq_sqrt hS
        unfold dist2D at hdeq
        nlinarith [hdeq, this]
      rw [← hhit]
      refine ⟨rfl, by linarith, rfl, ?_, ?_, ?_, ?_, ?_⟩
      · rw [hcorr]
        show (1 / d) * 0 = 0
        ring
      · rw [hcorr]
        show ((1 / d) * ((closestPointOf track.skeletonPoints i t).x - pos.x)) ^ 2 +
          ((1 / d) * ((closestPointOf track.skeletonPoints i t).z - pos.z)) ^ 2 = 1
        have hne : d ≠ 0 := ne_of_gt hd0
        field_simp
        linarith [hsq]
      · rw [hcorr]
        show (1 / d) * ((closestPointOf track.skeletonPoints i t).x - pos.x) * d =
          (closestPointOf track.skeletonPoints i t).x - pos.x
        field_simp
      · rw [hcorr]
        show (1 / d) * ((closestPointOf track.skeletonPoints i t).z - pos.z) * d =
          (closestPointOf track.skeletonPoints i t).z - pos.z
        field_simp
      · intro hd2
        show d - (track.trackWidth / 2 - 1) = 2
        rw [hd2]
        ring
    · rw [if_neg hgt] at hhit
      exact Option.noConfusion hhit

/-- Helper: evaluating `len3` at a vector whose squared length is known. -/
theorem len3_eval (v : Vec3) (r : ℝ) (h : dot3 v v = r ^ 2) (hr : 0 ≤ r) :
    len3 v = r := by
  unfold len3
  rw [h]
  exact Real.sqrt_sq hr

/-- Helper: evaluating `dist2D` at points whose squared 2D distance is
known. -/
theorem dist2D_eval (a b : Vec3) (r : ℝ)
    (h : (a.x - b.x) ^ 2 + (a.z - b.z) ^ 2 = r ^ 2) (hr : 0 ≤ r) :
    dist2D a b = r := by
  unfold dist2D
  rw [h]
  exact Real.sqrt_sq hr

/-- Helper: the wall scan on the example track at the query `(7, 0, 5)`
finds 2D distance 7 on edge 0 at parameter `1/2`. -/
theorem exWallScan_eval :
    wallScan exTrack.skeletonPoints ⟨7, 0, 5⟩ = some (7, 0, 1/2) := by
  have hg0 : exTrack.skeletonPoints.getD 0 ⟨0, 0, 0⟩ = ⟨0, 0, 0⟩ := rfl
  have hg1 : exTrack.skeletonPoints.getD ((0 + 1) % exTrack.skeletonPoints.length)
      ⟨0, 0, 0⟩ = ⟨0, 0, 10⟩ := rfl
  have hg1b : exTrack.skeletonPoints.getD 1 ⟨0, 0, 0⟩ = ⟨0, 0, 10⟩ := rfl
  have hg0b : exTrack.skeletonPoints.getD ((1 + 1) % exTrack.skeletonPoints.length)
      ⟨0, 0, 0⟩ = ⟨0, 0, 0⟩ := rfl
  have hlen01 : len3 (vsub (⟨0, 0, 10⟩ : Vec3) ⟨0, 0, 0⟩) = 10 :=
    len3_eval _ 10 (by norm_num [vsub, dot3]) (by norm_num)
  have hlen10 : len3 (vsub (⟨0, 0, 0⟩ : Vec3) ⟨0, 0, 10⟩) = 10 :=
    len3_eval _ 10 (by norm_num [vsub, dot3]) (by norm_num)
  have hep0 : edgeProj exTrack.skeletonPoints ⟨7, 0, 5⟩ 0 = some (7, 1/2) := by
    simp only [edgeProj]
    rw [hg0, hg1]
    rw [if_neg (by rw [hlen01]; norm_num)]
    have hdot : dot3 (vsub (⟨7, 0, 5⟩ : Vec3) ⟨0, 0, 0⟩)
        (vsub (⟨0, 0, 10⟩ : Vec3) ⟨0, 0, 0⟩) = 50 := by norm_num [vsub, dot3]
    rw [hdot, hlen01]
    have hcl : clamp01 (50 / (10 * 10)) = 1/2 := by
      unfold clamp01
      rw [show (50 : ℝ) / (10 * 10) = 1/2 by norm_num]
      rw [min_eq_right (by norm_num : (1:ℝ)/2 ≤ 1)]
      rw [max_eq_right (by norm_num : (0:ℝ) ≤ 1/2)]
    rw [hcl]
    have hdist : dist2D ⟨7, 0, 5⟩
        (vadd (⟨0, 0, 0⟩ : Vec3) (vsmul (1/2) (vsub (⟨0, 0, 10⟩ : Vec3) ⟨0, 0, 0⟩))) = 7 :=
      dist2D_eval _ _ 7 (by norm_num [vadd, vsmul, vsub]) (by norm_num)
    rw [hdist]
  have hep1 : edgeProj exTrack.skeletonPoints ⟨7, 0, 5⟩ 1 = some (7, 1/2) := by
    simp only [edgeProj]
    rw [hg1b, hg0b]
    rw [if_neg (by rw [hlen10]; norm_num)]
    have hdot : dot3 (vsub (⟨7, 0, 5⟩ : Vec3) ⟨0, 0, 10⟩)
        (vsub (⟨0, 0, 0⟩ : Vec3) ⟨0, 0, 10⟩) = 50 := by norm_num [vsub, dot3]
    rw [hdot, hlen10]
    have hcl : clamp01 (50 / (10 * 10)) = 1/2 := by
      unfold clamp01
      rw [show (50 : ℝ) / (10 * 10) = 1/2 by norm_num]
      rw [min_eq_right (by norm_num : (1:ℝ)/2 ≤ 1)]
      rw [max_eq_right (by norm_num : (0:ℝ) ≤ 1/2)]
    rw [hcl]
    have hdist : dist2D ⟨7, 0, 5⟩
        (vadd (⟨0, 0, 10⟩ : Vec3) (vsmul (1/2) (vsub (⟨0, 0, 0⟩ : Vec3) ⟨0, 0, 10⟩))) = 7 :=
      dist2D_eval _ _ 7 (by norm_num [vadd, vsmul, vsub]) (by norm_num)
    rw [hdist]
  unfold wallScan
  rw [show exTrack.skeletonPoints.length = 2 from rfl]
  rw [show List.range 2 = [0, 1] from rfl]
  rw [List.foldl_cons, List.foldl_cons, List.foldl_nil]
  have hs0 : wallScanStep exTrack.skeletonPoints ⟨7, 0, 5⟩ none 0 = some (7, 0, 1/2) := by
    simp only [wallScanStep, hep0]
  rw [hs0]
  simp only [wallScanStep, hep1]
  rw [if_neg (lt_irrefl 7)]

/-- Helper: the boundary check on the example track reports penetration
depth 2, closest centerline point `(0, 0, 5)` and unit correction
`(-1, 0, 0)` at the query `(7, 0, 5)`. -/
theorem exWallCollision_eval :
    checkWallCollision exTrack ⟨7, 0, 5⟩ =
      some { correctionVector := ⟨-1, 0, 0⟩, penetrationDepth := 2,
             closestPoint := ⟨0, 0, 5⟩ } := by
  simp only [checkWallCollision]
  rw [if_neg (by norm_num [exTrack] : ¬ exTrack.skeletonPoints.length < 2)]
  rw [exWallScan_eval]
  dsimp only
  have hcp : closestPointOf exTrack.skeletonPoints 0 (1/2) = ⟨0, 0, 5⟩ := by
    have hg0 : exTrack.skeletonPoints.getD 0 ⟨0, 0, 0⟩ = ⟨0, 0, 0⟩ := rfl
    have hg1 : exTrack.skeletonPoints.getD ((0 + 1) % exTrack.skeletonPoints.length)
        ⟨0, 0, 0⟩ = ⟨0, 0, 10⟩ := rfl
    simp only [closestPointOf]
    rw [hg0, hg1]
    simp only [vadd, vsmul, vsub, Vec3.mk.injEq]
    norm_num
  rw [hcp]
  rw [if_pos (by norm_num [exTrack] : (7:ℝ) > exTrack.trackWidth / 2 - 1.0)]
  have hnv : vnormalize ⟨(⟨0, 0, 5⟩ : Vec3).x - (⟨7, 0, 5⟩ : Vec3).x, 0,
      (⟨0, 0, 5⟩ : Vec3).z - (⟨7, 0, 5⟩ : Vec3).z⟩ = ⟨-1, 0, 0⟩ := by
    have hlen7 : len3 ⟨(⟨0, 0, 5⟩ : Vec3).x - (⟨7, 0, 5⟩ : Vec3).x, 0,
        (⟨0, 0, 5⟩ : Vec3).z - (⟨7, 0, 5⟩ : Vec3).z⟩ = 7 :=
      len3_eval _ 7 (by norm_num [dot3]) (by norm_num)
    unfold vnormalize
    rw [hlen7]
    rw [if_neg (by norm_num)]
    simp only [vsmul, Vec3.mk.injEq]
    norm_num
  rw [hnv]
  have hpen : (7 : ℝ) - (exTrack.trackWidth / 2 - 1.0) = 2 := by norm_num [exTrack]
  rw [hpen]

/-- C3 witness: the example track (width 12, so corridor radius 5) queried
2 units outside the corridor. -/
theorem C3_wall_boundary_witness :
    (2 ≤ exTrack.skeletonPoints.length ∧ 2 ≤ exTrack.trackWidth ∧
      wallScan exTrack.skeletonPoints ⟨7, 0, 5⟩ = some (7, 0, 1/2)) ∧
    checkWallCollision exTrack ⟨7, 0, 5⟩ =
      some { correctionVector := ⟨-1, 0, 0⟩, penetrationDepth := 2,
             closestPoint := ⟨0, 0, 5⟩ } ∧
    (edgeProj exTrack.skeletonPoints ⟨7, 0, 5⟩ 0 = some (7, 1/2) ∧
    (∀ j, j < exTrack.skeletonPoints.length → ∀ dj tj,
      edgeProj exTrack.skeletonPoints ⟨7, 0, 5⟩ j = some (dj, tj) → 7 ≤ dj) ∧
    (checkWallCollision exTrack ⟨7, 0, 5⟩ = none ↔ (7:ℝ) ≤ exTrack.trackWidth / 2 - 1) ∧
    (∀ hit, checkWallCollision exTrack ⟨7, 0, 5⟩ = some hit →
      hit.penetrationDepth = 7 - (exTrack.trackWidth / 2 - 1) ∧
      0 < hit.penetrationDepth ∧
      hit.closestPoint = closestPointOf exTrack.skeletonPoints 0 (1/2) ∧
      hit.correctionVector.y = 0 ∧
      hit.correctionVector.x ^ 2 + hit.correctionVector.z ^ 2 = 1 ∧
      hit.correctionVector.x * 7 = hit.closestPoint.x - (⟨7, 0, 5⟩ : Vec3).x ∧
      hit.correctionVector.z * 7 = hit.closestPoint.z - (⟨7, 0, 5⟩ : Vec3).z ∧
      ((7:ℝ) = (exTrack.trackWidth / 2 - 1) + 2 → hit.penetrationDepth = 2))) :=
  ⟨⟨by norm_num [exTrack], by norm_num [exTrack], exWallScan_eval⟩,
    exWallCollision_eval,
    C3_wall_boundary exTrack ⟨7, 0, 5⟩ 7 0 (1/2)
      (by norm_num [exTrack]) (by norm_num [exTrack]) exWallScan_eval⟩

/-- C5 witness: the example vehicle drifted outside the corridor, where the
boundary check reports the concrete collision record. -/
theorem C5_wall_response_witness :
    (exCarWall.isDead = false ∧
      checkWallCollision exTrack exCarWall.pos =
        some { correctionVector := ⟨-1, 0, 0⟩, penetrationDepth := 2,
               closestPoint := ⟨0, 0, 5⟩ }) ∧
    (checkWallCollisionsStep exTrack exCarWall =
      wallResponseStep exCarWall
        { correctionVector := ⟨-1, 0, 0⟩, penetrationDepth := 2,
          closestPoint := ⟨0, 0, 5⟩ } ∧
    (wallResponseStep exCarWall
        { correctionVector := ⟨-1, 0, 0⟩, penetrationDepth := 2,
          closestPoint := ⟨0, 0, 5⟩ }).pos =
      vadd exCarWall.pos (vsmul (min ((2:ℝ) * 1.5) 1.0) ⟨-1, 0, 0⟩) ∧
    (wallResponseStep exCarWall
        { correctionVector := ⟨-1, 0, 0⟩, penetrationDepth := 2,
          closestPoint := ⟨0, 0, 5⟩ }).speed = exCarWall.speed * 0.7 ∧
    (wallResponseStep exCarWall
        { correctionVector := ⟨-1, 0, 0⟩, penetrationDepth := 2,
          closestPoint := ⟨0, 0, 5⟩ }).rotY =
      exCarWall.rotY + wrapToPi (atan2 (-1) 0 - exCarWall.rotY) * 0.2 ∧
    -Real.pi ≤ wrapToPi (atan2 (-1) 0 - exCarWall.rotY) ∧
    wrapToPi (atan2 (-1) 0 - exCarWall.rotY) ≤ Real.pi ∧
    ∃ k : ℤ, wrapToPi (atan2 (-1) 0 - exCarWall.rotY) =
      atan2 (-1) 0 - exCarWall.rotY - 2 * Real.pi * k) :=
  ⟨⟨rfl, exWallCollision_eval⟩,
    C5_wall_response exTrack exCarWall
      { correctionVector := ⟨-1, 0, 0⟩, penetrationDepth := 2,
        closestPoint := ⟨0, 0, 5⟩ } rfl exWallCollision_eval⟩

/-- C8 witness: the example vehicle (zero angular difference) under a
60 fps tick. -/
theorem C8_interpolation_convergence_witness :
    (-(3 * Real.pi) ≤ exCar.targetRot - exCar.rotY ∧
      exCar.targetRot - exCar.rotY ≤ 3 * Real.pi) ∧
    ((interpolateStep exCar 0.016).pos =
      vlerp exCar.pos (vadd exCar.targetPos (vsmul (0.016 * 2) exCar.velocity)) 0.3 ∧
    dist3 (interpolateStep exCar 0.016).pos
        (vadd exCar.targetPos (vsmul (0.016 * 2) exCar.velocity)) =
      0.7 * dist3 exCar.pos (vadd exCar.targetPos (vsmul (0.016 * 2) exCar.velocity)) ∧
    dist3 (interpolateStep exCar 0.016).pos
        (vadd exCar.targetPos (vsmul (0.016 * 2) exCar.velocity)) ≤
      dist3 exCar.pos (vadd exCar.targetPos (vsmul (0.016 * 2) exCar.velocity)) ∧
    ∃ w : ℝ,
      (w = exCar.targetRot - exCar.rotY ∨ w = exCar.targetRot - exCar.rotY - 2 * Real.pi ∨
        w = exCar.targetRot - exCar.rotY + 2 * Real.pi) ∧
      -Real.pi ≤ w ∧ w ≤ Real.pi ∧
      (interpolateStep exCar 0.016).rotY = exCar.rotY + w * 0.25) := by
  have hd : exCar.targetRot - exCar.rotY = 0 := by
    show (0 : ℝ) - 0 = 0
    ring
  have hlo : -(3 * Real.pi) ≤ exCar.targetRot - exCar.rotY := by
    rw [hd]
    nlinarith [Real.pi_pos]
  have hhi : exCar.targetRot - exCar.rotY ≤ 3 * Real.pi := by
    rw [hd]
    nlinarith [Real.pi_pos]
  exact ⟨⟨hlo, hhi⟩, C8_interpolation_convergence exCar 0.016 hlo hhi⟩

end Racing
